import Mathlib

set_option autoImplicit false

/-!
# Dynamo: product catalogue handlers over a key-value store with a read accelerator

Shallow embedding of `src/app/src/clients/dynamoClient.js` (client factory) and
`src/app/src/handlers/products.js` (request handlers).  Module-level variables, the clock,
the id generator and the table live in an explicit `World` that every function threads.
`try`/`catch` is modelled with `Except`: the "try" part of a handler returns
`Except JErr Response × World`, the handler itself pattern-matches on it as its `catch`.
-/

namespace Dynamo

/-! ## JavaScript values -/

/-- A JavaScript number.  Every finite double is a rational (negative zero is
identified with zero); the handlers perform no floating-point arithmetic on request data,
they only test numbers for truthiness and carry them around. -/
inductive JNum where
  | fin (q : ℚ)
  | nan
  | inf (negative : Bool)
deriving DecidableEq

/-- A JavaScript value: what `JSON.parse` yields, plus `undefined`. -/
inductive JVal where
  | undefined
  | null
  | bool (b : Bool)
  | num (n : JNum)
  | str (s : String)
  | arr (xs : List JVal)
  | obj (fields : List (String × JVal))

/-- A thrown JavaScript error: `error.code` (set by the store SDK, `undefined` for a plain
`Error` or `TypeError`) and `error.message`. -/
structure JErr where
  code : Option String
  message : String
deriving DecidableEq

/-- The value of `new Error(message)`: no `code` property. -/
def JErr.plain (message : String) : JErr := ⟨none, message⟩

/-- The number literal `n` of the source, for an integer `n`. -/
def JVal.int (n : Int) : JVal := .num (.fin n)

/-- JavaScript truthiness (`!!v`): `undefined`, `null`, `false`, `0`, `NaN` and `''` are
falsy, everything else is truthy. -/
def JVal.truthy : JVal → Bool
  | .undefined => false
  | .null => false
  | .bool b => b
  | .num (.fin q) => decide (q ≠ 0)
  | .num .nan => false
  | .num (.inf _) => true
  | .str s => decide (s ≠ "")
  | .arr _ => true
  | .obj _ => true

/-- Lookup of a key in an association list (first binding wins). -/
def assocGet {β : Type} : List (String × β) → String → Option β
  | [], _ => none
  | (k, v) :: rest, key => if k = key then some v else assocGet rest key

/-- Overwrite (or add) a binding in an association list. -/
def assocSet {β : Type} : List (String × β) → String → β → List (String × β)
  | [], key, v => [(key, v)]
  | (k, x) :: rest, key, v => if k = key then (k, v) :: rest else (k, x) :: assocSet rest key v

/-- Property read `data[field]` for the property names the handlers use (none of them is
defined on a prototype): a `TypeError` on `null`/`undefined`, the own property of an
object, `undefined` otherwise. -/
def JVal.getProp (data : JVal) (field : String) : Except JErr JVal :=
  match data with
  | .undefined =>
    .error (JErr.plain ("Cannot read properties of undefined (reading '" ++ field ++ "')"))
  | .null =>
    .error (JErr.plain ("Cannot read properties of null (reading '" ++ field ++ "')"))
  | .obj fields => .ok ((assocGet fields field).getD .undefined)
  | _ => .ok .undefined

/-- Whether an object value has the own property `field` (so that `data[field]` is not
read from a missing key). -/
def JVal.hasKey (data : JVal) (field : String) : Bool :=
  match data with
  | .obj fields => (assocGet fields field).isSome
  | _ => false

/-- Total property read, `undefined` where there is nothing to read; used on response
bodies built by the handlers. -/
def JVal.field (data : JVal) (name : String) : JVal :=
  match data with
  | .obj fields => (assocGet fields name).getD .undefined
  | _ => .undefined

/-- Truthiness of an optional string (`process.env.X`, `event.pathParameters?.id`):
`undefined` and `''` are falsy. -/
def optTruthy : Option String → Bool
  | none => false
  | some s => decide (s ≠ "")

/-! ## Clients, requests and the table -/

/-- What a document client talks to: the store directly, or the accelerator cluster at
an endpoint. -/
inductive ClientKind where
  | direct
  | accelerated (endpoint : String)
deriving DecidableEq

/-- A document-client object.  `id` is the object identity: each `new` yields a fresh one. -/
structure Client where
  id : Nat
  kind : ClientKind
  region : String
deriving DecidableEq

/-- A stored row: the composite key `(ProductID, Version)` (partition key of type string,
sort key of type number) and the remaining attributes. -/
structure Row where
  productID : String
  version : ℚ
  attrs : List (String × JVal)

/-- Read an attribute of a row, `undefined` when it has none of that name. -/
def Row.getAttr (r : Row) (name : String) : JVal :=
  if name = "ProductID" then .str r.productID
  else if name = "Version" then .num (.fin r.version)
  else (assocGet r.attrs name).getD .undefined

/-- The row as the document client returns it: one object holding key and attributes. -/
def Row.toItem (r : Row) : JVal :=
  .obj (("ProductID", .str r.productID) :: ("Version", .num (.fin r.version)) :: r.attrs)

/-- The condition expressions the handlers use. -/
inductive Cond where
  | attribute_not_exists (attr : String)
  | and (a b : Cond)

/-- Parameters of `put`. -/
structure PutReq where
  TableName : Option String
  Item : JVal
  ConditionExpression : Option Cond

/-- Parameters of `update`.  `UpdateExpression` is the list of `lhs = rhs` clauses after
`SET`, each side a token exactly as the source writes it (`UpdatedAt`, `#version`,
`:version`). -/
structure UpdateReq where
  TableName : Option String
  Key : List (String × JVal)
  UpdateExpression : List (String × String)
  ExpressionAttributeNames : List (String × String)
  ExpressionAttributeValues : List (String × JVal)
  ReturnValues : String

/-- Parameters of `delete`. -/
structure DeleteReq where
  TableName : Option String
  Key : List (String × JVal)

/-- Parameters of `query`.  `KeyConditionExpression` is the pair `(attribute, token)` of
the single equality `attribute = token` the source writes. -/
structure QueryReq where
  TableName : Option String
  IndexName : Option String
  KeyConditionExpression : String × String
  ExpressionAttributeValues : List (String × JVal)
  ProjectionExpression : Option (List String)
  ExpressionAttributeNames : List (String × String)
  ScanIndexForward : Bool
  Limit : Option JNum

/-- Parameters of `scan`. -/
structure ScanReq where
  TableName : Option String
  Limit : Option JNum

/-- Parameters of `batchWrite`: the keys of the `DeleteRequest`s listed under the table. -/
structure BatchWriteReq where
  TableName : Option String
  DeleteRequests : List (List (String × JVal))

/-- A request to the store. -/
inductive StoreOp where
  | put (req : PutReq)
  | update (req : UpdateReq)
  | delete (req : DeleteReq)
  | query (req : QueryReq)
  | scan (req : ScanReq)
  | batchWrite (req : BatchWriteReq)

/-- One entry of the call trace: which client object carried which request. -/
structure Call where
  client : Client
  op : StoreOp

/-- The result of `query` and `scan`. -/
structure QueryResult where
  Items : Option (List JVal)
  Count : Nat
  LastEvaluatedKey : Option JVal

/-! ## The world -/

/-- What stays fixed while the process runs.

* `TABLE_NAME`, `DAX_ENDPOINT`, `AWS_REGION`: `process.env`.
* `strToNumber`, `objToNumber`, `parseInt`: the language built-ins `Number(s)` on a string,
  `Number(o)` on an object or array (it may throw) and `parseInt(s)`.
* `clock`: the value of the `n`-th `Date.now()`; `uuids`: of the `n`-th `uuidv4()`.
* `daxRequire`, `daxConstruct`: the outcome of `require('amazon-dax-client')` and of
  constructing the accelerated client (`new AmazonDaxClient(..)` wrapped in a document
  client).
* `storeVerdict n op`: whether the `n`-th call, carrying `op`, fails before the store
  looks at the table (unreachable, throttled, unknown table) and with which error.
* `batchProcesses n key`: whether the store, when the `n`-th call is a batch, processes
  the delete of `key`; what it leaves unprocessed it reports in `UnprocessedItems`, which
  `deleteProduct` never reads. -/
structure Config where
  TABLE_NAME : Option String
  DAX_ENDPOINT : Option String
  AWS_REGION : Option String
  strToNumber : String → JNum
  objToNumber : JVal → Except JErr JNum
  parseInt : String → JNum
  clock : Nat → Int
  uuids : Nat → String
  daxRequire : Except JErr Unit
  daxConstruct : Except JErr Unit
  storeVerdict : Nat → StoreOp → Option JErr
  batchProcesses : Nat → String × ℚ → Bool

/-- Everything the two modules read or change.

* `cfg`: the fixed part.
* `ticks`, `uuidCount`: how many times `Date.now()` and `uuidv4()` have been called.
* `AmazonDaxClient`, `dynamoDBClient`, `daxClient`: the module variables of
  `dynamoClient.js`; `nextClient` numbers the client objects created so far.
* `table`: the rows of the table; `calls`: the trace of store calls issued. -/
structure World where
  cfg : Config
  ticks : Nat
  uuidCount : Nat
  AmazonDaxClient : Bool
  dynamoDBClient : Option Client
  daxClient : Option Client
  nextClient : Nat
  table : List Row
  calls : List Call

/-- Model of `Date.now()`. -/
def World.dateNow (w : World) : Int × World :=
  (w.cfg.clock w.ticks, { w with ticks := w.ticks + 1 })

/-- Model of `uuidv4()`. -/
def World.uuidv4 (w : World) : String × World :=
  (w.cfg.uuids w.uuidCount, { w with uuidCount := w.uuidCount + 1 })

/-- Model of `Number(v)`. -/
def Config.toNumber (cfg : Config) : JVal → Except JErr JNum
  | .undefined => .ok .nan
  | .null => .ok (.fin 0)
  | .bool b => .ok (.fin (if b then 1 else 0))
  | .num n => .ok n
  | .str s => .ok (cfg.strToNumber s)
  | .arr xs => cfg.objToNumber (.arr xs)
  | .obj fields => cfg.objToNumber (.obj fields)

/-! ## dynamoClient.js -/

/-- The value of `process.env.AWS_REGION || 'us-east-1'`. -/
def World.region (w : World) : String :=
  if optTruthy w.cfg.AWS_REGION then w.cfg.AWS_REGION.getD "us-east-1" else "us-east-1"

/-- Source `createDynamoDBClient`: a new document client on the store itself. -/
def createDynamoDBClient (w : World) : Client × World :=
  (⟨w.nextClient, .direct, w.region⟩, { w with nextClient := w.nextClient + 1 })

/-- The `try` block of `createDAXClient` (lines 62–79), entered with a non-empty endpoint:
load the accelerator package unless already loaded, construct the accelerated client. -/
def createDAXClientTry (daxEndpoint : String) (w : World) : Except JErr Client × World :=
  match (if !w.AmazonDaxClient then w.cfg.daxRequire else .ok ()) with
  | .error e => (.error e, w)
  | .ok _ =>
    let w1 := { w with AmazonDaxClient := true }
    match w1.cfg.daxConstruct with
    | .error e => (.error e, w1)
    | .ok _ =>
      (.ok ⟨w1.nextClient, .accelerated daxEndpoint, w1.region⟩,
        { w1 with nextClient := w1.nextClient + 1 })

/-- Source `createDAXClient`: without an endpoint, or when the `try` block throws, fall
back to `createDynamoDBClient`. -/
def createDAXClient (w : World) : Client × World :=
  if !optTruthy w.cfg.DAX_ENDPOINT then createDynamoDBClient w
  else
    match createDAXClientTry (w.cfg.DAX_ENDPOINT.getD "") w with
    | (.ok c, w1) => (c, w1)
    | (.error _, w1) => createDynamoDBClient w1

/-- Source `getWriteClient`: the memoised direct client. -/
def getWriteClient (w : World) : Client × World :=
  match w.dynamoDBClient with
  | some c => (c, w)
  | none =>
    let r := createDynamoDBClient w
    (r.1, { r.2 with dynamoDBClient := some r.1 })

/-- Source `getReadClient`: the memoised client made by `createDAXClient`. -/
def getReadClient (w : World) : Client × World :=
  match w.daxClient with
  | some c => (c, w)
  | none =>
    let r := createDAXClient w
    (r.1, { r.2 with daxClient := some r.1 })

/-- Source `isUsingDAX`: `!!process.env.DAX_ENDPOINT`. -/
def isUsingDAX (w : World) : Bool := optTruthy w.cfg.DAX_ENDPOINT

/-! ## The store

Modelled from the spec (§6, backing store contract; the store and its SDK are not part of
the repository): point write with optional existence-condition; point update with
partial-attribute semantics and full-row return; point delete by composite key; ordered
range query by partition key with descending-order and limit support; range query by
secondary index key with limit support; bounded scan; multi-item batch delete by
composite key list, not atomic across items (§5).  The accelerated handle "implements the
identical read-query capability set", so a call returns the same through either kind of
client.  Two rules of the store that the spec does not state are modelled from the
store's documentation, because the handlers run into them: an update may not assign a key
attribute, and a batch holds between 1 and 25 requests. -/

/-- The error the store raises for a request it cannot interpret. -/
def validationException (message : String) : JErr := ⟨some "ValidationException", message⟩

/-- The error the store raises when a condition expression does not hold. -/
def conditionalCheckFailed : JErr :=
  ⟨some "ConditionalCheckFailedException", "The conditional request failed"⟩

/-- Whether a value is `undefined` (such properties are not marshalled). -/
def JVal.isUndefined : JVal → Bool
  | .undefined => true
  | _ => false

/-- The composite key named by an object, when `ProductID` is a string and `Version` a
finite number. -/
def keyOf (key : List (String × JVal)) : Option (String × ℚ) :=
  match assocGet key "ProductID", assocGet key "Version" with
  | some (.str p), some (.num (.fin v)) => some (p, v)
  | _, _ => none

/-- Whether a row has the given composite key. -/
def Row.hasKey (r : Row) (k : String × ℚ) : Bool :=
  decide (r.productID = k.1) && decide (r.version = k.2)

/-- Whether a row has an attribute of the given name. -/
def Row.hasAttr (r : Row) (name : String) : Bool :=
  decide (name = "ProductID") || decide (name = "Version") || (assocGet r.attrs name).isSome

/-- Marshal an item into a row: the key attributes must have the key schema's types,
`undefined` properties are dropped. -/
def Row.ofItem (item : JVal) : Option Row :=
  match item with
  | .obj fields =>
    match keyOf fields with
    | some (p, v) =>
      some ⟨p, v, fields.filter (fun kv =>
        !(decide (kv.1 = "ProductID") || decide (kv.1 = "Version") || kv.2.isUndefined))⟩
    | none => none
  | _ => none

/-- Write one attribute of a row.  The key attributes `ProductID` and `Version` cannot
be written: a row never changes its key. -/
def Row.setAttr (r : Row) (name : String) (v : JVal) : Option Row :=
  if name = "ProductID" ∨ name = "Version" then none
  else some { r with attrs := assocSet r.attrs name v }

/-- Evaluate a condition expression against the row that currently has the key (if any). -/
def Cond.eval (existing : Option Row) : Cond → Bool
  | .attribute_not_exists a =>
    match existing with
    | none => true
    | some r => !r.hasAttr a
  | .and a b => a.eval existing && b.eval existing

/-- Modelled from the spec: the store's "point write with optional existence-condition"
(§6).  The condition is evaluated against the row holding the item's key; on success the
item replaces that row or is added; on failure the table is left alone and the error
code is `ConditionalCheckFailedException` (the code `createProduct` tests for). -/
def Store.put (t : List Row) (req : PutReq) : Except JErr (List Row) :=
  match Row.ofItem req.Item with
  | none => .error (validationException "One or more parameter values were invalid")
  | some row =>
    let existing := t.find? (fun r => r.hasKey (row.productID, row.version))
    let holds := match req.ConditionExpression with
      | none => true
      | some c => c.eval existing
    if holds then .ok (t.filter (fun r => !r.hasKey (row.productID, row.version)) ++ [row])
    else .error conditionalCheckFailed

/-- Resolve the `SET` clauses of an update: a left-hand token bound in
`ExpressionAttributeNames` stands for that attribute name, any other token is the name
itself; a right-hand token must be bound in `ExpressionAttributeValues`. -/
def resolveClauses (names : List (String × String)) (values : List (String × JVal)) :
    List (String × String) → Option (List (String × JVal))
  | [] => some []
  | (lhs, rhs) :: rest =>
    match assocGet values rhs, resolveClauses names values rest with
    | some v, some tail => some (((assocGet names lhs).getD lhs, v) :: tail)
    | _, _ => none

/-- Apply attribute assignments to a row, left to right. -/
def applySets : Row → List (String × JVal) → Option Row
  | r, [] => some r
  | r, (name, v) :: rest =>
    match r.setAttr name v with
    | some r1 => applySets r1 rest
    | none => none

/-- Replace the first row that has the key, or add the row when none has it. -/
def replaceRow (k : String × ℚ) (new : Row) : List Row → List Row
  | [] => [new]
  | r :: rest => if r.hasKey k then new :: rest else r :: replaceRow k new rest

/-- The first attribute of the key schema (`ProductID`, `Version`) that a list of
assignments writes, if any. -/
def keyAssignment (sets : List (String × JVal)) : Option String :=
  (sets.find? (fun s => decide (s.1 = "ProductID") || decide (s.1 = "Version"))).map Prod.fst

/-- Modelled from the spec: the store's "point update with partial-attribute semantics
and full-row return" (§6).  The assignments are applied to the row holding the key (to a
row with only the key when there is none); attributes not assigned keep their values.
The store refuses, with a `ValidationException` and without touching the table, an update
that assigns an attribute of the key (a rule of the store, not described by the spec).
With `ReturnValues = 'ALL_NEW'` the result is the row after the update. -/
def Store.update (t : List Row) (req : UpdateReq) : Except JErr (List Row × JVal) :=
  match keyOf req.Key with
  | none => .error (validationException "The provided key element does not match the schema")
  | some k =>
    match resolveClauses req.ExpressionAttributeNames req.ExpressionAttributeValues
        req.UpdateExpression with
    | none => .error (validationException "Invalid UpdateExpression")
    | some sets =>
      match keyAssignment sets with
      | some name =>
        .error (validationException ("One or more parameter values were invalid: " ++
          "Cannot update attribute " ++ name ++ ". This attribute is part of the key"))
      | none =>
        let base := (t.find? (fun r => r.hasKey k)).getD ⟨k.1, k.2, []⟩
        match applySets base sets with
        | none => .error (validationException "One or more parameter values were invalid")
        | some new =>
          .ok (replaceRow k new t,
            if req.ReturnValues = "ALL_NEW" then new.toItem else .undefined)

/-- Modelled from the spec: the store's "point delete by composite key" (§6). -/
def Store.delete (t : List Row) (req : DeleteReq) : Except JErr (List Row) :=
  match keyOf req.Key with
  | none => .error (validationException "The provided key element does not match the schema")
  | some k => .ok (t.filter (fun r => !r.hasKey k))

/-- The number of rows a `Limit` allows: a positive integer, or no bound. -/
def limitCount : Option JNum → Option (Option Nat)
  | none => some none
  | some (.fin q) => if q.den = 1 ∧ 1 ≤ q.num then some (some q.num.toNat) else none
  | some _ => none

/-- Cut the matching rows at the limit.  The spec does not describe `LastEvaluatedKey`;
this follows the store's documentation: the key of the last row read is reported when the
read stopped because the limit was reached. -/
def page (rows : List Row) : Option Nat → List Row × Option JVal
  | none => (rows, none)
  | some n =>
    (rows.take n,
      if n ≤ rows.length then
        (rows.take n).getLast?.map
          (fun r => JVal.obj [("ProductID", .str r.productID), ("Version", .num (.fin r.version))])
      else none)

/-- Keep the projected attributes of a row (tokens resolved as in `resolveClauses`). -/
def project (names : List (String × String)) (projection : Option (List String))
    (r : Row) : JVal :=
  match projection with
  | none => r.toItem
  | some toks =>
    .obj ((toks.map (fun tok => (assocGet names tok).getD tok)).filterMap (fun a =>
      if r.hasAttr a then some (a, r.getAttr a) else none))

/-- The rows of a partition in sort-key order, ascending or descending. -/
def partitionRows (t : List Row) (pid : String) (forward : Bool) : List Row :=
  let rows := t.filter (fun r => decide (r.productID = pid))
  if forward then rows.insertionSort (fun a b => a.version ≤ b.version)
  else rows.insertionSort (fun a b => b.version ≤ a.version)

/-- The rows the secondary index `CategoryIndex` lists under a category. -/
def categoryRows (t : List Row) (category : String) : List Row :=
  t.filter (fun r =>
    match r.getAttr "Category" with
    | .str c => decide (c = category)
    | _ => false)

/-- Modelled from the spec: the store's "ordered range query by partition key with
descending-order and limit support" and "ordered range query by secondary index key with
limit support" (§6): by `ProductID` on the table (ordered by `Version`), or by `Category`
on the index `CategoryIndex`; bounded by `Limit`. -/
def Store.query (t : List Row) (req : QueryReq) : Except JErr QueryResult :=
  match assocGet req.ExpressionAttributeValues req.KeyConditionExpression.2,
      limitCount req.Limit with
  | some (.str key), some limit =>
    let rows : Option (List Row) :=
      match req.IndexName with
      | none =>
        if req.KeyConditionExpression.1 = "ProductID" then
          some (partitionRows t key req.ScanIndexForward)
        else none
      | some index =>
        if index = "CategoryIndex" ∧ req.KeyConditionExpression.1 = "Category" then
          some (categoryRows t key)
        else none
    match rows with
    | none => .error (validationException "Query condition missed key schema element")
    | some rows =>
      let p := page rows limit
      .ok { Items := some (p.1.map (project req.ExpressionAttributeNames req.ProjectionExpression)),
            Count := p.1.length,
            LastEvaluatedKey := p.2 }
  | _, _ => .error (validationException "One or more parameter values were invalid")

/-- Modelled from the spec: the store's "unordered bounded scan" (§6). -/
def Store.scan (t : List Row) (req : ScanReq) : Except JErr QueryResult :=
  match limitCount req.Limit with
  | none => .error (validationException "Limit must be a positive integer")
  | some limit =>
    let p := page t limit
    .ok { Items := some (p.1.map Row.toItem), Count := p.1.length, LastEvaluatedKey := p.2 }

/-- The keys of a batch, when every one of them matches the key schema. -/
def batchKeys : List (List (String × JVal)) → Option (List (String × ℚ))
  | [] => some []
  | key :: rest =>
    match keyOf key, batchKeys rest with
    | some k, some ks => some (k :: ks)
    | _, _ => none

/-- Modelled from the spec: the store's "multi-item batch delete by composite key list"
(§6), "not atomic across items — partial batch failure leaves the store in a mixed state"
(§5): of the listed keys, those the store processes (`processes`) are deleted, the others
stay.  A batch of no request or of more than 25 requests is refused as a whole, with a
`ValidationException` and without touching the table (the store's documented limit, not
described by the spec). -/
def Store.batchWrite (t : List Row) (req : BatchWriteReq) (processes : String × ℚ → Bool) :
    Except JErr (List Row) :=
  if req.DeleteRequests.length = 0 then
    .error (validationException
      "The batch write request list for a table cannot be null or empty")
  else if 25 < req.DeleteRequests.length then
    .error (validationException
      "Too many items requested for the BatchWriteItem call")
  else
    match batchKeys req.DeleteRequests with
    | none => .error (validationException "The provided key element does not match the schema")
    | some ks =>
      .ok ((ks.filter processes).foldl (fun acc k => acc.filter (fun r => !r.hasKey k)) t)

/-! ## Calls through a client -/

/-- Issue a call: it is appended to the trace, and the store's verdict on it is read. -/
def World.call (w : World) (c : Client) (op : StoreOp) : Option JErr × World :=
  (w.cfg.storeVerdict w.calls.length op, { w with calls := w.calls ++ [⟨c, op⟩] })

/-- Model of `client.put(params).promise()`. -/
def Client.put (c : Client) (req : PutReq) (w : World) : Except JErr Unit × World :=
  let r := w.call c (.put req)
  match r.1 with
  | some e => (.error e, r.2)
  | none =>
    match Store.put r.2.table req with
    | .error e => (.error e, r.2)
    | .ok t => (.ok (), { r.2 with table := t })

/-- Model of `client.update(params).promise()`; the result is `result.Attributes`. -/
def Client.update (c : Client) (req : UpdateReq) (w : World) : Except JErr JVal × World :=
  let r := w.call c (.update req)
  match r.1 with
  | some e => (.error e, r.2)
  | none =>
    match Store.update r.2.table req with
    | .error e => (.error e, r.2)
    | .ok res => (.ok res.2, { r.2 with table := res.1 })

/-- Model of `client.delete(params).promise()`. -/
def Client.delete (c : Client) (req : DeleteReq) (w : World) : Except JErr Unit × World :=
  let r := w.call c (.delete req)
  match r.1 with
  | some e => (.error e, r.2)
  | none =>
    match Store.delete r.2.table req with
    | .error e => (.error e, r.2)
    | .ok t => (.ok (), { r.2 with table := t })

/-- Model of `client.query(params).promise()`. -/
def Client.query (c : Client) (req : QueryReq) (w : World) : Except JErr QueryResult × World :=
  let r := w.call c (.query req)
  match r.1 with
  | some e => (.error e, r.2)
  | none => (Store.query r.2.table req, r.2)

/-- Model of `client.scan(params).promise()`. -/
def Client.scan (c : Client) (req : ScanReq) (w : World) : Except JErr QueryResult × World :=
  let r := w.call c (.scan req)
  match r.1 with
  | some e => (.error e, r.2)
  | none => (Store.scan r.2.table req, r.2)

/-- Model of `client.batchWrite(params).promise()`.  The resolved value (it holds the
`UnprocessedItems`) is left out: `deleteProduct` awaits the call and drops the result. -/
def Client.batchWrite (c : Client) (req : BatchWriteReq) (w : World) :
    Except JErr Unit × World :=
  let r := w.call c (.batchWrite req)
  match r.1 with
  | some e => (.error e, r.2)
  | none =>
    match Store.batchWrite r.2.table req (w.cfg.batchProcesses w.calls.length) with
    | .error e => (.error e, r.2)
    | .ok t => (.ok (), { r.2 with table := t })

/-! ## products.js -/

/-- The request event, as the gateway delivers it.  `parsedBody` is the outcome of
`JSON.parse(event.body)`: the parsed value, or the `SyntaxError` it throws. -/
structure Event where
  httpMethod : String
  path : String
  pathParameters : Option (List (String × String))
  queryStringParameters : Option (List (String × String))
  parsedBody : Except JErr JVal

/-- The expression `event.pathParameters?.id`. -/
def Event.pathId (ev : Event) : Option String :=
  match ev.pathParameters with
  | none => none
  | some ps => assocGet ps "id"

/-- The expression `event.queryStringParameters?.[name]`. -/
def Event.queryParam (ev : Event) (name : String) : Option String :=
  match ev.queryStringParameters with
  | none => none
  | some qs => assocGet qs name

/-- The handler's response.  `body` is the value handed to `JSON.stringify`. -/
structure Response where
  statusCode : Nat
  headers : List (String × String)
  body : JVal

/-- Source `createResponse` (no caller passes `additionalHeaders`). -/
def createResponse (w : World) (statusCode : Nat) (body : JVal) : Response :=
  { statusCode := statusCode
    headers := [("Content-Type", "application/json"), ("Access-Control-Allow-Origin", "*"),
      ("X-Using-DAX", if isUsingDAX w then "true" else "false")]
    body := body }

/-- The expression `requiredFields.filter(field => !data[field])`. -/
def missingFields (data : JVal) : List String → Except JErr (List String)
  | [] => .ok []
  | field :: rest =>
    match data.getProp field with
    | .error e => .error e
    | .ok v =>
      match missingFields data rest with
      | .error e => .error e
      | .ok ms => .ok (if !v.truthy then field :: ms else ms)

/-- Source `validateRequiredFields`: throws when some required field is falsy in `data`. -/
def validateRequiredFields (data : JVal) (requiredFields : List String) : Except JErr Unit :=
  match missingFields data requiredFields with
  | .error e => .error e
  | .ok missing =>
    if missing.length > 0 then
      .error (JErr.plain ("Missing required fields: " ++ ", ".intercalate missing))
    else .ok ()

/-- Read a property of a value already known not to be `null`/`undefined`. -/
def JVal.prop (data : JVal) (name : String) : JVal :=
  match data.getProp name with
  | .ok v => v
  | .error _ => .undefined

/-- The expression `body.ttl ? Math.floor(Date.now() / 1000) + (30 * 24 * 60 * 60) : undefined`
(line 81); the clock is read only when `body.ttl` is truthy. -/
def expiresAt (body : JVal) (w : World) : JVal × World :=
  if (body.prop "ttl").truthy then
    (JVal.int (Int.fdiv w.dateNow.1 1000 + 30 * 24 * 60 * 60), w.dateNow.2)
  else (.undefined, w)

/-- Lines 63–82 of `createProduct`: parse, validate, draw timestamp and id, build the item.
The object literal is evaluated top to bottom: `uuidv4()`, then `Number(body.price)`,
then `Number(body.stock || 0)`, then the second `Date.now()` when `body.ttl` is truthy. -/
def createProductItem (ev : Event) (w : World) : Except JErr JVal × World :=
  match ev.parsedBody with
  | .error e => (.error e, w)
  | .ok body =>
    match validateRequiredFields body ["name", "category", "price"] with
    | .error e => (.error e, w)
    | .ok _ =>
      let t := w.dateNow
      let timestamp := t.1
      let u := t.2.uuidv4
      let w2 := u.2
      match w2.cfg.toNumber (body.prop "price") with
      | .error e => (.error e, w2)
      | .ok price =>
        match w2.cfg.toNumber
            (if (body.prop "stock").truthy then body.prop "stock" else JVal.int 0) with
        | .error e => (.error e, w2)
        | .ok stock =>
          let x := expiresAt body w2
          (.ok (.obj [
            ("ProductID", .str u.1),
            ("Version", JVal.int timestamp),
            ("Name", body.prop "name"),
            ("Category", body.prop "category"),
            ("Price", .num price),
            ("Description",
              if (body.prop "description").truthy then body.prop "description" else .str ""),
            ("Stock", .num stock),
            ("CreatedAt", JVal.int timestamp),
            ("UpdatedAt", JVal.int timestamp),
            ("ExpiresAt", x.1)]), x.2)

/-- The condition expression of `createProduct`:
`attribute_not_exists(ProductID) AND attribute_not_exists(Version)`. -/
def notExistsCond : Cond :=
  .and (.attribute_not_exists "ProductID") (.attribute_not_exists "Version")

/-- The `try` block of `createProduct`. -/
def createProductTry (ev : Event) (w : World) : Except JErr Response × World :=
  match createProductItem ev w with
  | (.error e, w1) => (.error e, w1)
  | (.ok product, w1) =>
    let c := getWriteClient w1
    match c.1.put
        { TableName := w.cfg.TABLE_NAME
          Item := product
          ConditionExpression := some notExistsCond } c.2 with
    | (.error e, w2) => (.error e, w2)
    | (.ok _, w2) =>
      (.ok (createResponse w2 201 (.obj [
        ("message", .str "Product created successfully"),
        ("product", product),
        ("metadata", .obj [("usedDAX", .bool false), ("operation", .str "write")])])), w2)

/-- Source `createProduct`. -/
def createProduct (ev : Event) (w : World) : Response × World :=
  match createProductTry ev w with
  | (.ok r, w1) => (r, w1)
  | (.error error, w1) =>
    if error.code = some "ConditionalCheckFailedException" then
      (createResponse w1 409 (.obj [("error", .str "Product version already exists")]), w1)
    else
      (createResponse w1 500 (.obj [
        ("error", .str "Failed to create product"),
        ("message", .str error.message)]), w1)

/-- The parameters of the query in `getProduct` (lines 141–149). -/
def latestQuery (tableName : Option String) (productId : String) : QueryReq :=
  { TableName := tableName
    IndexName := none
    KeyConditionExpression := ("ProductID", ":pid")
    ExpressionAttributeValues := [(":pid", .str productId)]
    ProjectionExpression := none
    ExpressionAttributeNames := []
    ScanIndexForward := false
    Limit := some (.fin 1) }

/-- The `try` block of `getProduct`. -/
def getProductTry (ev : Event) (w : World) : Except JErr Response × World :=
  match ev.pathId with
  | none => (.ok (createResponse w 400 (.obj [("error", .str "ProductID is required")])), w)
  | some productId =>
    if productId = "" then
      (.ok (createResponse w 400 (.obj [("error", .str "ProductID is required")])), w)
    else
      let c := getReadClient w
      let s := c.2.dateNow
      match c.1.query (latestQuery w.cfg.TABLE_NAME productId) s.2 with
      | (.error e, w1) => (.error e, w1)
      | (.ok result, w1) =>
        let e := w1.dateNow
        let latency := e.1 - s.1
        let w2 := e.2
        match result.Items with
        | none => (.ok (createResponse w2 404 (.obj [("error", .str "Product not found")])), w2)
        | some [] => (.ok (createResponse w2 404 (.obj [("error", .str "Product not found")])), w2)
        | some (first :: _) =>
          (.ok (createResponse w2 200 (.obj [
            ("product", first),
            ("metadata", .obj [
              ("usedDAX", .bool (isUsingDAX w2)),
              ("operation", .str "read"),
              ("latencyMs", JVal.int latency),
              ("cacheNote", .str (if isUsingDAX w2 then
                "This read went through DAX. Subsequent reads of the same item should be faster (cache hit)."
              else "DAX is not configured. Reading directly from DynamoDB."))])])), w2)

/-- Source `getProduct`. -/
def getProduct (ev : Event) (w : World) : Response × World :=
  match getProductTry ev w with
  | (.ok r, w1) => (r, w1)
  | (.error error, w1) =>
    (createResponse w1 500 (.obj [
      ("error", .str "Failed to get product"),
      ("message", .str error.message)]), w1)

/-- ASCII model of `String.prototype.toLowerCase` (applied to the five attribute names
only). -/
def toLowerCase (s : String) : String := ⟨s.data.map Char.toLower⟩

/-- The three accumulators of the `forEach` in `updateProduct`. -/
structure UpdateAcc where
  updateExpression : List (String × String)
  expressionAttributeNames : List (String × String)
  expressionAttributeValues : List (String × JVal)

/-- One iteration of `updatableFields.forEach` (lines 213–225). -/
def updateStep (cfg : Config) (body : JVal) (acc : UpdateAcc) (field : String) :
    Except JErr UpdateAcc :=
  match body.getProp (toLowerCase field) with
  | .error e => .error e
  | .ok value =>
    if value.isUndefined then .ok acc
    else
      let attrName := "#" ++ toLowerCase field
      let attrValue := ":" ++ toLowerCase field
      let coerced : Except JErr JVal :=
        if field = "Price" ∨ field = "Stock" then
          match cfg.toNumber value with
          | .error e => .error e
          | .ok n => .ok (.num n)
        else .ok value
      match coerced with
      | .error e => .error e
      | .ok v =>
        .ok { updateExpression := acc.updateExpression ++ [(attrName, attrValue)]
              expressionAttributeNames := assocSet acc.expressionAttributeNames attrName field
              expressionAttributeValues := assocSet acc.expressionAttributeValues attrValue v }

/-- The whole `forEach`. -/
def updateLoop (cfg : Config) (body : JVal) :
    UpdateAcc → List String → Except JErr UpdateAcc
  | acc, [] => .ok acc
  | acc, field :: rest =>
    match updateStep cfg body acc field with
    | .error e => .error e
    | .ok acc1 => updateLoop cfg body acc1 rest

/-- The list `updatableFields` of the source. -/
def updatableFields : List String := ["Name", "Category", "Price", "Description", "Stock"]

/-- Lines 199–239 of `updateProduct`: the parameters of the `update` call for a body and
a timestamp. -/
def updateParams (cfg : Config) (productId : String) (body : JVal) (timestamp : Int) :
    Except JErr UpdateReq :=
  let init : UpdateAcc :=
    { updateExpression := [("UpdatedAt", ":updatedAt"), ("#version", ":version")]
      expressionAttributeNames := [("#version", "Version")]
      expressionAttributeValues :=
        [(":updatedAt", JVal.int timestamp), (":version", JVal.int timestamp)] }
  match updateLoop cfg body init updatableFields with
  | .error e => .error e
  | .ok acc =>
    .ok { TableName := cfg.TABLE_NAME
          Key := [("ProductID", .str productId),
            ("Version", if (body.prop "version").truthy then body.prop "version"
              else JVal.int timestamp)]
          UpdateExpression := acc.updateExpression
          ExpressionAttributeNames := acc.expressionAttributeNames
          ExpressionAttributeValues := acc.expressionAttributeValues
          ReturnValues := "ALL_NEW" }

/-- The `try` block of `updateProduct`. -/
def updateProductTry (ev : Event) (w : World) : Except JErr Response × World :=
  match ev.parsedBody with
  | .error e => (.error e, w)
  | .ok body =>
    if !optTruthy ev.pathId then
      (.ok (createResponse w 400 (.obj [("error", .str "ProductID is required")])), w)
    else
      let t := w.dateNow
      match updateParams w.cfg (ev.pathId.getD "") body t.1 with
      | .error e => (.error e, t.2)
      | .ok params =>
        let c := getWriteClient t.2
        match c.1.update params c.2 with
        | (.error e, w1) => (.error e, w1)
        | (.ok attributes, w1) =>
          (.ok (createResponse w1 200 (.obj [
            ("message", .str "Product updated successfully"),
            ("product", attributes),
            ("metadata", .obj [
              ("usedDAX", .bool false),
              ("operation", .str "write"),
              ("note", .str "DAX cache will be invalidated automatically")])])), w1)

/-- Source `updateProduct`. -/
def updateProduct (ev : Event) (w : World) : Response × World :=
  match updateProductTry ev w with
  | (.ok r, w1) => (r, w1)
  | (.error error, w1) =>
    (createResponse w1 500 (.obj [
      ("error", .str "Failed to update product"),
      ("message", .str error.message)]), w1)

/-- The parameters of the query in `deleteProduct` (lines 294–304); `ScanIndexForward` and
`Limit` are not given: ascending order, no bound. -/
def versionsQuery (tableName : Option String) (productId : String) : QueryReq :=
  { TableName := tableName
    IndexName := none
    KeyConditionExpression := ("ProductID", ":pid")
    ExpressionAttributeValues := [(":pid", .str productId)]
    ProjectionExpression := some ["ProductID", "#version"]
    ExpressionAttributeNames := [("#version", "Version")]
    ScanIndexForward := true
    Limit := none }

/-- The delete requests `deleteProduct` builds from the enumerated items (lines 308–315). -/
def deleteRequests (items : List JVal) : List (List (String × JVal)) :=
  items.map (fun item =>
    [("ProductID", item.field "ProductID"), ("Version", item.field "Version")])

/-- The projected item of a row under `ProjectionExpression: 'ProductID, #version'`: its
key. -/
def keyItem (r : Row) : JVal :=
  .obj [("ProductID", .str r.productID), ("Version", .num (.fin r.version))]

/-- The `else` branch of `deleteProduct` (lines 292–322): enumerate the versions through
the read client, then batch-delete them through the write client. -/
def deleteAllVersions (productId : String) (writeClient : Client) (w : World) :
    Except JErr Unit × World :=
  let c := getReadClient w
  match c.1.query (versionsQuery w.cfg.TABLE_NAME productId) c.2 with
  | (.error e, w1) => (.error e, w1)
  | (.ok result, w1) =>
    match result.Items with
    | none => (.ok (), w1)
    | some [] => (.ok (), w1)
    | some (item :: items) =>
      writeClient.batchWrite
        { TableName := w.cfg.TABLE_NAME, DeleteRequests := deleteRequests (item :: items) } w1

/-- The `try` block of `deleteProduct`. -/
def deleteProductTry (ev : Event) (w : World) : Except JErr Response × World :=
  if !optTruthy ev.pathId then
    (.ok (createResponse w 400 (.obj [("error", .str "ProductID is required")])), w)
  else
    let productId := ev.pathId.getD ""
    let c := getWriteClient w
    let r : Except JErr Unit × World :=
      if optTruthy (ev.queryParam "version") then
        c.1.delete
          { TableName := w.cfg.TABLE_NAME
            Key := [("ProductID", .str productId),
              ("Version", .num (w.cfg.strToNumber ((ev.queryParam "version").getD "")))] } c.2
      else deleteAllVersions productId c.1 c.2
    match r with
    | (.error e, w1) => (.error e, w1)
    | (.ok _, w1) =>
      (.ok (createResponse w1 200 (.obj [
        ("message", .str "Product deleted successfully"),
        ("metadata", .obj [("usedDAX", .bool false), ("operation", .str "write")])])), w1)

/-- Source `deleteProduct`. -/
def deleteProduct (ev : Event) (w : World) : Response × World :=
  match deleteProductTry ev w with
  | (.ok r, w1) => (r, w1)
  | (.error error, w1) =>
    (createResponse w1 500 (.obj [
      ("error", .str "Failed to delete product"),
      ("message", .str error.message)]), w1)

/-- The `try` block of `listProducts`. -/
def listProductsTry (ev : Event) (w : World) : Except JErr Response × World :=
  let category := ev.queryParam "category"
  let limit := w.cfg.parseInt
    (if optTruthy (ev.queryParam "limit") then (ev.queryParam "limit").getD "" else "20")
  let c := getReadClient w
  let s := c.2.dateNow
  let r : Except JErr QueryResult × World :=
    if optTruthy category then
      c.1.query
        { TableName := w.cfg.TABLE_NAME
          IndexName := some "CategoryIndex"
          KeyConditionExpression := ("Category", ":category")
          ExpressionAttributeValues := [(":category", .str (category.getD ""))]
          ProjectionExpression := none
          ExpressionAttributeNames := []
          ScanIndexForward := true
          Limit := some limit } s.2
    else c.1.scan { TableName := w.cfg.TABLE_NAME, Limit := some limit } s.2
  match r with
  | (.error e, w1) => (.error e, w1)
  | (.ok result, w1) =>
    let e := w1.dateNow
    let latency := e.1 - s.1
    let w2 := e.2
    (.ok (createResponse w2 200 (.obj [
      ("products", .arr (result.Items.getD [])),
      ("count", JVal.int result.Count),
      ("metadata", .obj [
        ("usedDAX", .bool (isUsingDAX w2)),
        ("operation", .str "read"),
        ("latencyMs", JVal.int latency),
        ("hasMoreResults", .bool result.LastEvaluatedKey.isSome)])])), w2)

/-- Source `listProducts`. -/
def listProducts (ev : Event) (w : World) : Response × World :=
  match listProductsTry ev w with
  | (.ok r, w1) => (r, w1)
  | (.error error, w1) =>
    (createResponse w1 500 (.obj [
      ("error", .str "Failed to list products"),
      ("message", .str error.message)]), w1)

/-- Source `handler`.  The five operations catch every error themselves, so the
handler's own `catch` has nothing to catch. -/
def handler (ev : Event) (w : World) : Response × World :=
  if !optTruthy w.cfg.TABLE_NAME then
    (createResponse w 500
      (.obj [("error", .str "TABLE_NAME environment variable not configured")]), w)
  else if ev.httpMethod = "POST" ∧ ev.path = "/products" then createProduct ev w
  else if ev.httpMethod = "GET" ∧ optTruthy ev.pathId = true then getProduct ev w
  else if ev.httpMethod = "GET" ∧ ev.path = "/products" then listProducts ev w
  else if ev.httpMethod = "PUT" ∧ optTruthy ev.pathId = true then updateProduct ev w
  else if ev.httpMethod = "DELETE" ∧ optTruthy ev.pathId = true then deleteProduct ev w
  else (createResponse w 404 (.obj [("error", .str "Route not found")]), w)

/-- The next `k` store calls reach the table, whatever they carry: none of them fails
before the store looks at it (`storeVerdict`).  What the store then answers to a request
is `Store.put`, `Store.update` and so on, which refuse what breaks a rule of the store. -/
def World.accepts (w : World) (k : Nat) : Prop :=
  ∀ i, i < k → ∀ op, w.cfg.storeVerdict (w.calls.length + i) op = none

/-- The assignments the spec describes for an update (section 4.2, "a partial-attribute
write touching only the fields supplied ... plus always bumping `UpdatedAt` and setting
`Version` to a fresh timestamp"; "numeric fields (price, stock) are coerced to numeric
type"): `UpdatedAt` and `Version` get the timestamp, then each of `Name`, `Category`,
`Price`, `Description`, `Stock` whose lower-case key is supplied in the body gets the
supplied value, `price` and `stock` standing for `Number(body.price)` and
`Number(body.stock)`.  Written from the spec, to be compared with what `updateParams`
(from the source) hands to the store. -/
def specAssignments (timestamp : Int) (body : JVal) (price stock : JNum) :
    List (String × JVal) :=
  [("UpdatedAt", JVal.int timestamp), ("Version", JVal.int timestamp)] ++
  (if (body.prop "name").isUndefined then [] else [("Name", body.prop "name")]) ++
  (if (body.prop "category").isUndefined then [] else [("Category", body.prop "category")]) ++
  (if (body.prop "price").isUndefined then [] else [("Price", .num price)]) ++
  (if (body.prop "description").isUndefined then []
    else [("Description", body.prop "description")]) ++
  (if (body.prop "stock").isUndefined then [] else [("Stock", .num stock)])

/-! ## Concrete worlds used to run the handlers -/

/-- A configuration with a table name, no accelerator endpoint, a store that is always
reachable and processes every key of a batch, and built-ins that answer on the few
strings used in the runs below. -/
def demoConfig : Config :=
  { TABLE_NAME := some "Products"
    DAX_ENDPOINT := none
    AWS_REGION := none
    strToNumber := fun s => if s = "100" then .fin 100 else .nan
    objToNumber := fun _ => .ok .nan
    parseInt := fun s => if s = "20" then .fin 20 else if s = "2" then .fin 2 else .nan
    clock := fun n => 1700000000000 + n
    uuids := fun n => "uuid-" ++ String.mk (List.replicate n 'x')
    daxRequire := .ok ()
    daxConstruct := .ok ()
    storeVerdict := fun _ _ => none
    batchProcesses := fun _ _ => true }

/-- A freshly started process over a given configuration and table. -/
def World.start (cfg : Config) (table : List Row) : World :=
  { cfg := cfg
    ticks := 0
    uuidCount := 0
    AmazonDaxClient := false
    dynamoDBClient := none
    daxClient := none
    nextClient := 0
    table := table
    calls := [] }

/-- The demo configuration, freshly started on an empty table. -/
def demoWorld : World := World.start demoConfig []

/-- The demo world with an accelerator endpoint configured whose package fails to load. -/
def brokenDaxWorld : World :=
  World.start
    { demoConfig with
      DAX_ENDPOINT := some "dax.example:8111"
      daxRequire := .error (JErr.plain "Cannot find module 'amazon-dax-client'") } []

/-- Three versions of product `p1` (written out of order) and one of `p2`. -/
def sampleRows : List Row :=
  [ ⟨"p1", 100, [("Name", .str "Widget"), ("Category", .str "tools"), ("Price", .num (.fin 5)),
      ("Description", .str "first"), ("Stock", .num (.fin 3)), ("CreatedAt", .num (.fin 100)),
      ("UpdatedAt", .num (.fin 100))]⟩,
    ⟨"p1", 200, [("Name", .str "Widget"), ("Category", .str "tools"), ("Price", .num (.fin 7)),
      ("Description", .str "third"), ("Stock", .num (.fin 1)), ("CreatedAt", .num (.fin 100)),
      ("UpdatedAt", .num (.fin 200))]⟩,
    ⟨"p1", 150, [("Name", .str "Widget"), ("Category", .str "tools"), ("Price", .num (.fin 6)),
      ("Description", .str "second"), ("Stock", .num (.fin 2)), ("CreatedAt", .num (.fin 100)),
      ("UpdatedAt", .num (.fin 150))]⟩,
    ⟨"p2", 120, [("Name", .str "Gadget"), ("Category", .str "toys"), ("Price", .num (.fin 9)),
      ("Description", .str ""), ("Stock", .num (.fin 0)), ("CreatedAt", .num (.fin 120)),
      ("UpdatedAt", .num (.fin 120))]⟩ ]

/-- An event with the given method, path, path id and parsed body, no query string. -/
def mkEvent (method path : String) (id : Option String) (body : Except JErr JVal) : Event :=
  { httpMethod := method
    path := path
    pathParameters := id.map (fun i => [("id", i)])
    queryStringParameters := none
    parsedBody := body }

/-- The event `DELETE /products/p1` without a `version` query parameter. -/
def deleteAllEvent : Event := mkEvent "DELETE" "/products/p1" (some "p1") (.ok .null)

/-- The demo configuration with a working accelerator, started on the sample rows. -/
def daxSampleWorld : World :=
  World.start { demoConfig with DAX_ENDPOINT := some "dax.example:8111" } sampleRows

/-- The create request of the spec's scenario: `name: "Widget", category: "tools",
price: 9.99` (the rational 999/100). -/
def widgetBody : JVal :=
  .obj [("name", .str "Widget"), ("category", .str "tools"), ("price", .num (.fin (mkRat 999 100)))]

/-- The event `POST /products` carrying `widgetBody`. -/
def widgetEvent : Event := mkEvent "POST" "/products" none (.ok widgetBody)

/-- The demo configuration started on a table that already holds a row under the id and
timestamp the next create will draw. -/
def collidingWorld : World :=
  World.start demoConfig [⟨"uuid-", 1700000000000, [("Name", .str "Earlier")]⟩]

/-- A create request that supplies all three required fields, with price `0`. -/
def freeBody : JVal :=
  .obj [("name", .str "Widget"), ("category", .str "tools"), ("price", .num (.fin 0))]

/-- The event `POST /products` carrying `freeBody`. -/
def freeEvent : Event := mkEvent "POST" "/products" none (.ok freeBody)

/-- The event `POST /products` carrying the empty object. -/
def emptyBodyEvent : Event := mkEvent "POST" "/products" none (.ok (.obj []))

/-- The demo configuration (no accelerator) started on the sample rows. -/
def sampleWorld : World := World.start demoConfig sampleRows

/-- The event `GET /products/p1`. -/
def getP1Event : Event := mkEvent "GET" "/products/p1" (some "p1") (.ok .null)

/-- The event `GET /products/p1` issued after the delete. -/
def getAfterDeleteEvent : Event := mkEvent "GET" "/products/p1" (some "p1") (.ok .null)

/-- The body of the spec's update scenario, addressed to version 100: `version: 100,
price: 19.99` (the rational 1999/100). -/
def priceOnlyFields : List (String × JVal) :=
  [("version", .num (.fin 100)), ("price", .num (.fin (mkRat 1999 100)))]

/-- The event `PUT /products/p1` carrying `priceOnlyFields`. -/
def priceUpdateEvent : Event :=
  mkEvent "PUT" "/products/p1" (some "p1") (.ok (.obj priceOnlyFields))

/-- The stored row of `p1` at version 100 (the first of `sampleRows`). -/
def p1v100 : Row :=
  ⟨"p1", 100, [("Name", .str "Widget"), ("Category", .str "tools"), ("Price", .num (.fin 5)),
    ("Description", .str "first"), ("Stock", .num (.fin 3)), ("CreatedAt", .num (.fin 100)),
    ("UpdatedAt", .num (.fin 100))]⟩

/-- The event `PUT /products` (no path id). -/
def putWithoutIdEvent : Event := mkEvent "PUT" "/products" none (.ok (.obj []))

/-- The expression `event.queryStringParameters?.limit || '20'` (line 353), the text
`listProducts` hands to `parseInt`. -/
def Event.limitText (ev : Event) : String :=
  if optTruthy (ev.queryParam "limit") then (ev.queryParam "limit").getD "" else "20"

/-- Two rows of category `tools` and one of category `toys`. -/
def toolsPairRows : List Row :=
  [ ⟨"a1", 10, [("Name", .str "Hammer"), ("Category", .str "tools"), ("Price", .num (.fin 12))]⟩,
    ⟨"b1", 30, [("Name", .str "Ball"), ("Category", .str "toys"), ("Price", .num (.fin 3))]⟩,
    ⟨"a2", 20, [("Name", .str "Saw"), ("Category", .str "tools"), ("Price", .num (.fin 15))]⟩ ]

/-- The demo configuration started on `toolsPairRows`. -/
def toolsPairWorld : World := World.start demoConfig toolsPairRows

/-- Five rows of category `tools` and one of category `toys`. -/
def fiveToolsRows : List Row :=
  [ ⟨"a1", 10, [("Name", .str "Hammer"), ("Category", .str "tools")]⟩,
    ⟨"a2", 20, [("Name", .str "Saw"), ("Category", .str "tools")]⟩,
    ⟨"b1", 30, [("Name", .str "Ball"), ("Category", .str "toys")]⟩,
    ⟨"a3", 40, [("Name", .str "Drill"), ("Category", .str "tools")]⟩,
    ⟨"a4", 50, [("Name", .str "File"), ("Category", .str "tools")]⟩,
    ⟨"a5", 60, [("Name", .str "Vise"), ("Category", .str "tools")]⟩ ]

/-- The demo configuration started on `fiveToolsRows`. -/
def fiveToolsWorld : World := World.start demoConfig fiveToolsRows

/-- The event `GET /products?category=tools&limit=2`. -/
def listToolsEvent : Event :=
  { httpMethod := "GET"
    path := "/products"
    pathParameters := none
    queryStringParameters := some [("category", "tools"), ("limit", "2")]
    parsedBody := .ok .null }

/-- The version numbers 1 to 30. -/
def bigVersions : List ℚ :=
  [1, 2, 3, 4, 5, 6, 7, 8, 9, 10, 11, 12, 13, 14, 15, 16, 17, 18, 19, 20, 21, 22, 23, 24, 25,
    26, 27, 28, 29, 30]

/-- Thirty versions of product `big`. -/
def bigRows : List Row :=
  bigVersions.map (fun v => ⟨"big", v, [("Name", .str "Big"), ("Category", .str "tools")]⟩)

/-- The demo configuration (no accelerator) started on `bigRows`. -/
def bigWorld : World := World.start demoConfig bigRows

/-- The event `DELETE /products/big` without a `version` query parameter. -/
def deleteBigEvent : Event := mkEvent "DELETE" "/products/big" (some "big") (.ok .null)

/-- The event `GET /products/big`. -/
def getBigEvent : Event := mkEvent "GET" "/products/big" (some "big") (.ok .null)

/-- The demo configuration with a store that, in a batch, leaves the delete of any key
with version 200 unprocessed; started on the sample rows. -/
def unprocessedWorld : World :=
  World.start { demoConfig with batchProcesses := fun _ k => decide (k.2 ≠ 200) } sampleRows

/-- What a call asks the store to delete in one batch: the number of delete requests of
a `batchWrite`, `none` for any other call. -/
def StoreOp.batchSize : StoreOp → Option Nat
  | .batchWrite req => some req.DeleteRequests.length
  | _ => none

/-- The key and the attribute assignments an `update` call carries, its `SET` clauses
resolved as the store resolves them; `none` for any other call. -/
def StoreOp.assignments : StoreOp → Option (List (String × JVal) × List (String × JVal))
  | .update req =>
    (resolveClauses req.ExpressionAttributeNames req.ExpressionAttributeValues
      req.UpdateExpression).map (fun sets => (req.Key, sets))
  | _ => none

/-! ## Theorems -/

/-- C10: `getReadClient` is a total function returning a client (every error of the
accelerated construction is caught).  On first use: with the endpoint unset or empty,
`isUsingDAX` is false and the client is a direct-store one; with the endpoint set but
loading or constructing the accelerated client throwing, the client is still a
direct-store one; `isUsingDAX` is true exactly when the endpoint is a non-empty string,
before and after the call; later calls return the same memoised client. -/
theorem getReadClient_never_fails (w : World) (hfresh : w.daxClient = none) :
    (optTruthy w.cfg.DAX_ENDPOINT = false →
      isUsingDAX w = false ∧ (getReadClient w).1.kind = .direct) ∧
    (∀ e, (w.AmazonDaxClient = false ∧ w.cfg.daxRequire = .error e) ∨
        w.cfg.daxConstruct = .error e →
      (getReadClient w).1.kind = .direct) ∧
    (isUsingDAX w = true ↔ ∃ s, w.cfg.DAX_ENDPOINT = some s ∧ s ≠ "") ∧
    isUsingDAX (getReadClient w).2 = isUsingDAX w ∧
    getReadClient (getReadClient w).2 = ((getReadClient w).1, (getReadClient w).2) := by
  refine ⟨?_, ?_, ?_, ?_, ?_⟩
  · intro h
    simp [isUsingDAX, getReadClient, hfresh, createDAXClient, h, createDynamoDBClient]
  · intro e he
    cases h0 : optTruthy w.cfg.DAX_ENDPOINT <;> cases h1 : w.AmazonDaxClient <;>
      cases h2 : w.cfg.daxRequire <;> cases h3 : w.cfg.daxConstruct <;>
      simp_all [getReadClient, createDAXClient, createDAXClientTry, createDynamoDBClient]
  · cases h : w.cfg.DAX_ENDPOINT <;> simp [isUsingDAX, optTruthy, h]
  · cases h0 : optTruthy w.cfg.DAX_ENDPOINT <;> cases h1 : w.AmazonDaxClient <;>
      cases h2 : w.cfg.daxRequire <;> cases h3 : w.cfg.daxConstruct <;>
      simp [getReadClient, createDAXClient, createDAXClientTry, createDynamoDBClient,
        isUsingDAX, hfresh, h0, h1, h2, h3]
  · simp only [getReadClient, hfresh]

/-- Witness for C10: an endpoint is configured, the package fails to load, and the read
client is a direct-store one. -/
theorem getReadClient_never_fails_witness :
    brokenDaxWorld.daxClient = none ∧
    (getReadClient brokenDaxWorld).1.kind = .direct ∧
    isUsingDAX brokenDaxWorld = true :=
  ⟨rfl,
   (getReadClient_never_fails brokenDaxWorld rfl).2.1
     (JErr.plain "Cannot find module 'amazon-dax-client'") (Or.inl ⟨rfl, rfl⟩),
   by decide⟩

/-! ### Frame lemmas: what obtaining a client leaves alone -/

@[simp] theorem getWriteClient_cfg (w : World) : (getWriteClient w).2.cfg = w.cfg := by
  unfold getWriteClient; split <;> rfl

@[simp] theorem getWriteClient_table (w : World) : (getWriteClient w).2.table = w.table := by
  unfold getWriteClient; split <;> rfl

@[simp] theorem getWriteClient_calls (w : World) : (getWriteClient w).2.calls = w.calls := by
  unfold getWriteClient; split <;> rfl

@[simp] theorem getWriteClient_ticks (w : World) : (getWriteClient w).2.ticks = w.ticks := by
  unfold getWriteClient; split <;> rfl

@[simp] theorem getWriteClient_uuidCount (w : World) :
    (getWriteClient w).2.uuidCount = w.uuidCount := by
  unfold getWriteClient; split <;> rfl

theorem createDAXClient_frame (w : World) :
    (createDAXClient w).2.cfg = w.cfg ∧ (createDAXClient w).2.table = w.table ∧
    (createDAXClient w).2.calls = w.calls ∧ (createDAXClient w).2.ticks = w.ticks ∧
    (createDAXClient w).2.uuidCount = w.uuidCount := by
  cases h0 : optTruthy w.cfg.DAX_ENDPOINT <;> cases h1 : w.AmazonDaxClient <;>
    cases h2 : w.cfg.daxRequire <;> cases h3 : w.cfg.daxConstruct <;>
    simp [createDAXClient, createDAXClientTry, createDynamoDBClient, h0, h1, h2, h3]

@[simp] theorem getReadClient_cfg (w : World) : (getReadClient w).2.cfg = w.cfg := by
  unfold getReadClient; split
  · rfl
  · exact (createDAXClient_frame w).1

@[simp] theorem getReadClient_table (w : World) : (getReadClient w).2.table = w.table := by
  unfold getReadClient; split
  · rfl
  · exact (createDAXClient_frame w).2.1

@[simp] theorem getReadClient_calls (w : World) : (getReadClient w).2.calls = w.calls := by
  unfold getReadClient; split
  · rfl
  · exact (createDAXClient_frame w).2.2.1

@[simp] theorem getReadClient_ticks (w : World) : (getReadClient w).2.ticks = w.ticks := by
  unfold getReadClient; split
  · rfl
  · exact (createDAXClient_frame w).2.2.2.1

@[simp] theorem getReadClient_uuidCount (w : World) :
    (getReadClient w).2.uuidCount = w.uuidCount := by
  unfold getReadClient; split
  · rfl
  · exact (createDAXClient_frame w).2.2.2.2

/-! ### C1: which client carries the calls of a write operation -/

/-- C1 (evaluation at the failing input): with a working accelerator configured,
`deleteProduct` without a version issues two store calls.  The first, the query that
enumerates the versions, is carried by client object 1, the accelerated client memoised
as the read client; only the second, the batch delete, is carried by client object 0,
the direct client memoised as the write client.  The response nevertheless reports
`usedDAX: false`. -/
theorem deleteProduct_enumerates_through_read_client :
    (deleteProduct deleteAllEvent daxSampleWorld).2.calls.map
        (fun c => (c.client.id, c.client.kind)) =
      [(1, .accelerated "dax.example:8111"), (0, .direct)] ∧
    (deleteProduct deleteAllEvent daxSampleWorld).2.daxClient =
      some ⟨1, .accelerated "dax.example:8111", "us-east-1"⟩ ∧
    (getReadClient (deleteProduct deleteAllEvent daxSampleWorld).2).1 =
      ⟨1, .accelerated "dax.example:8111", "us-east-1"⟩ ∧
    (getWriteClient (deleteProduct deleteAllEvent daxSampleWorld).2).1 =
      ⟨0, .direct, "us-east-1"⟩ ∧
    (deleteProduct deleteAllEvent daxSampleWorld).1.statusCode = 200 ∧
    ((deleteProduct deleteAllEvent daxSampleWorld).1.body.field "metadata").field "usedDAX" =
      .bool false := by
  refine ⟨by decide, by decide, by decide, by decide, by decide, rfl⟩

/-- After `getWriteClient`, the module variable holds the client it returned. -/
theorem getWriteClient_memo (w : World) :
    (getWriteClient w).2.dynamoDBClient = some (getWriteClient w).1 := by
  unfold getWriteClient
  split
  · next c h => exact h
  · rfl

theorem getWriteClient_of_some (w : World) (c : Client) (h : w.dynamoDBClient = some c) :
    (getWriteClient w).1 = c := by
  simp only [getWriteClient, h]

/-- Every `put` adds exactly itself to the trace and leaves the module variables alone. -/
theorem Client.put_trace (c : Client) (req : PutReq) (w : World) :
    (c.put req w).2.calls = w.calls ++ [⟨c, .put req⟩] ∧
    (c.put req w).2.dynamoDBClient = w.dynamoDBClient := by
  unfold Client.put World.call
  dsimp only
  split
  · exact ⟨rfl, rfl⟩
  · split <;> exact ⟨rfl, rfl⟩

/-- Every `update` adds exactly itself to the trace and leaves the module variables
alone. -/
theorem Client.update_trace (c : Client) (req : UpdateReq) (w : World) :
    (c.update req w).2.calls = w.calls ++ [⟨c, .update req⟩] ∧
    (c.update req w).2.dynamoDBClient = w.dynamoDBClient := by
  unfold Client.update World.call
  dsimp only
  split
  · exact ⟨rfl, rfl⟩
  · split <;> exact ⟨rfl, rfl⟩

/-- Every `delete` adds exactly itself to the trace and leaves the module variables
alone. -/
theorem Client.delete_trace (c : Client) (req : DeleteReq) (w : World) :
    (c.delete req w).2.calls = w.calls ++ [⟨c, .delete req⟩] ∧
    (c.delete req w).2.dynamoDBClient = w.dynamoDBClient := by
  unfold Client.delete World.call
  dsimp only
  split
  · exact ⟨rfl, rfl⟩
  · split <;> exact ⟨rfl, rfl⟩

/-! ### C2: a colliding create is a conflict -/

theorem find_hasKey_isSome (t : List Row) (k : String × ℚ)
    (h : ∃ r ∈ t, r.productID = k.1 ∧ r.version = k.2) :
    ∃ r0, t.find? (fun r => r.hasKey k) = some r0 := by
  obtain ⟨r, hr, h1, h2⟩ := h
  have : (t.find? (fun r => r.hasKey k)).isSome = true := by
    rw [List.find?_isSome]
    exact ⟨r, hr, by simp [Row.hasKey, h1, h2]⟩
  exact Option.isSome_iff_exists.mp this

theorem Store.put_conflict (t : List Row) (tn : Option String) (item : JVal) (row : Row)
    (hrow : Row.ofItem item = some row)
    (h : ∃ r ∈ t, r.productID = row.productID ∧ r.version = row.version) :
    Store.put t { TableName := tn, Item := item, ConditionExpression := some notExistsCond } =
      .error conditionalCheckFailed := by
  obtain ⟨r0, hr0⟩ := find_hasKey_isSome t (row.productID, row.version) h
  simp [Store.put, hrow, hr0, notExistsCond, Cond.eval, Row.hasAttr]

theorem expiresAt_frame (body : JVal) (w : World) :
    (expiresAt body w).2.cfg = w.cfg ∧ (expiresAt body w).2.table = w.table ∧
    (expiresAt body w).2.calls = w.calls ∧ (expiresAt body w).2.uuidCount = w.uuidCount := by
  unfold expiresAt
  split <;> simp [World.dateNow]

/-- The item `createProduct` builds for a body that passes validation. -/
theorem createProductItem_ok (ev : Event) (w : World) (body : JVal) (price stock : JNum)
    (hbody : ev.parsedBody = .ok body)
    (hvalid : validateRequiredFields body ["name", "category", "price"] = .ok ())
    (hprice : w.cfg.toNumber (body.prop "price") = .ok price)
    (hstock : w.cfg.toNumber
      (if (body.prop "stock").truthy then body.prop "stock" else JVal.int 0) = .ok stock) :
    ∃ product x w1, createProductItem ev w = (.ok product, w1) ∧
      product = .obj [
        ("ProductID", .str (w.cfg.uuids w.uuidCount)),
        ("Version", JVal.int (w.cfg.clock w.ticks)),
        ("Name", body.prop "name"),
        ("Category", body.prop "category"),
        ("Price", .num price),
        ("Description",
          if (body.prop "description").truthy then body.prop "description" else .str ""),
        ("Stock", .num stock),
        ("CreatedAt", JVal.int (w.cfg.clock w.ticks)),
        ("UpdatedAt", JVal.int (w.cfg.clock w.ticks)),
        ("ExpiresAt", x)] ∧
      w1.cfg = w.cfg ∧ w1.table = w.table ∧ w1.calls = w.calls ∧
      (x = .undefined ∨ ∃ n : Int, x = JVal.int n) := by
  refine ⟨_, (expiresAt body (w.dateNow.2.uuidv4).2).1, (expiresAt body (w.dateNow.2.uuidv4).2).2,
    ?_, rfl, ?_, ?_, ?_, ?_⟩
  · simp [createProductItem, hbody, hvalid, hprice, hstock, World.dateNow, World.uuidv4]
  · rw [(expiresAt_frame _ _).1]; rfl
  · rw [(expiresAt_frame _ _).2.1]; rfl
  · rw [(expiresAt_frame _ _).2.2.1]; rfl
  · unfold expiresAt
    split
    · exact Or.inr ⟨_, rfl⟩
    · exact Or.inl rfl

/-- A `put` the store's verdict lets through is decided by the table. -/
theorem Client.put_accepted (c : Client) (req : PutReq) (w : World)
    (hv : w.cfg.storeVerdict w.calls.length (.put req) = none) :
    c.put req w =
      match Store.put w.table req with
      | .error e => (.error e, { w with calls := w.calls ++ [⟨c, .put req⟩] })
      | .ok t => (.ok (), { w with calls := w.calls ++ [⟨c, .put req⟩], table := t }) := by
  simp only [Client.put, World.call, hv]

/-- A `put` the store's verdict rejects throws that error and leaves the table alone. -/
theorem Client.put_rejected (c : Client) (req : PutReq) (w : World) (e : JErr)
    (hv : w.cfg.storeVerdict w.calls.length (.put req) = some e) :
    c.put req w = (.error e, { w with calls := w.calls ++ [⟨c, .put req⟩] }) := by
  simp only [Client.put, World.call, hv]

theorem keyOf_product (id : String) (ts : Int) (rest : List (String × JVal)) :
    keyOf (("ProductID", .str id) :: ("Version", JVal.int ts) :: rest) = some (id, (ts : ℚ)) := by
  simp [keyOf, assocGet, JVal.int]

/-- Marshalling an item that starts with a well-typed key yields a row with that key. -/
theorem ofItem_product (id : String) (ts : Int) (rest : List (String × JVal)) :
    ∃ attrs, Row.ofItem (.obj (("ProductID", .str id) :: ("Version", JVal.int ts) :: rest)) =
      some ⟨id, (ts : ℚ), attrs⟩ := by
  simp [Row.ofItem, keyOf_product]

/-- The `try` block of `createProduct` once the item is built: one `put` through the write
client. -/
theorem createProductTry_of_item (ev : Event) (w : World) (product : JVal) (w1 : World)
    (hitem : createProductItem ev w = (.ok product, w1)) :
    createProductTry ev w =
      match (getWriteClient w1).1.put
          { TableName := w.cfg.TABLE_NAME, Item := product,
            ConditionExpression := some notExistsCond } (getWriteClient w1).2 with
      | (.error e, w2) => (.error e, w2)
      | (.ok _, w2) =>
        (.ok (createResponse w2 201 (.obj [
          ("message", .str "Product created successfully"),
          ("product", product),
          ("metadata", .obj [("usedDAX", .bool false), ("operation", .str "write")])])), w2) := by
  simp only [createProductTry, hitem]

/-- C2: a create request that reaches the conditional insert (its body parses, passes
validation and its price and stock coerce to numbers) while the table already holds a row
with the generated `(ProductID, Version)`: when the store processes the insert, the
response is 409 and the table is unchanged; when the store fails the call with any error
whose code is not `ConditionalCheckFailedException`, the response is 500 (a different
status) and the table is unchanged as well. -/
theorem createProduct_conflict (ev : Event) (w : World) (body : JVal) (price stock : JNum)
    (hbody : ev.parsedBody = .ok body)
    (hvalid : validateRequiredFields body ["name", "category", "price"] = .ok ())
    (hprice : w.cfg.toNumber (body.prop "price") = .ok price)
    (hstock : w.cfg.toNumber
      (if (body.prop "stock").truthy then body.prop "stock" else JVal.int 0) = .ok stock)
    (hrow : ∃ r ∈ w.table, r.productID = w.cfg.uuids w.uuidCount ∧
      r.version = (w.cfg.clock w.ticks : ℚ)) :
    (w.accepts 1 →
      (createProduct ev w).1.statusCode = 409 ∧ (createProduct ev w).2.table = w.table) ∧
    (∀ e, (∀ op, w.cfg.storeVerdict w.calls.length op = some e) →
      e.code ≠ some "ConditionalCheckFailedException" →
      (createProduct ev w).1.statusCode = 500 ∧ (createProduct ev w).2.table = w.table) ∧
    (409 : Nat) ≠ 500 := by
  obtain ⟨product, x, w1, hitem, hprod, hcfg, htable, hcalls, -⟩ :=
    createProductItem_ok ev w body price stock hbody hvalid hprice hstock
  have htry := createProductTry_of_item ev w product w1 hitem
  refine ⟨?_, ?_, by decide⟩
  · intro hacc
    have hv := hacc 0 (by decide)
    simp only [Nat.add_zero] at hv
    obtain ⟨attrs, hattrs⟩ := ofItem_product (w.cfg.uuids w.uuidCount) (w.cfg.clock w.ticks)
      [("Name", body.prop "name"), ("Category", body.prop "category"), ("Price", .num price),
        ("Description",
          if (body.prop "description").truthy then body.prop "description" else .str ""),
        ("Stock", .num stock), ("CreatedAt", JVal.int (w.cfg.clock w.ticks)),
        ("UpdatedAt", JVal.int (w.cfg.clock w.ticks)), ("ExpiresAt", x)]
    rw [← hprod] at hattrs
    have hconf := Store.put_conflict w.table w.cfg.TABLE_NAME product _ hattrs hrow
    rw [Client.put_accepted _ _ _ (by simp [hcfg, hcalls, hv])] at htry
    simp only [getWriteClient_table, htable, hconf] at htry
    simp [createProduct, htry, conditionalCheckFailed, createResponse, htable]
  · intro e hv hcode
    rw [Client.put_rejected _ _ _ e (by simp [hcfg, hcalls, hv])] at htry
    simp [createProduct, htry, hcode, createResponse, htable]

/-- Witness for C2: the scenario create against a table that already holds the row
`("uuid-", 1700000000000)`, the key the create draws. -/
theorem createProduct_conflict_witness :
    widgetEvent.parsedBody = .ok widgetBody ∧
    validateRequiredFields widgetBody ["name", "category", "price"] = .ok () ∧
    collidingWorld.accepts 1 ∧
    (createProduct widgetEvent collidingWorld).1.statusCode = 409 ∧
    (createProduct widgetEvent collidingWorld).2.table = collidingWorld.table :=
  ⟨rfl, by rfl, fun _ _ _ => rfl,
    (createProduct_conflict widgetEvent collidingWorld widgetBody (.fin (mkRat 999 100)) (.fin 0)
      rfl (by rfl) (by rfl) (by rfl)
      ⟨⟨"uuid-", 1700000000000, [("Name", .str "Earlier")]⟩, List.mem_cons_self _ _, by decide,
        by decide⟩).1 (fun _ _ _ => rfl)⟩

/-! ### C3, C4, C5: validation in `createProduct` -/

/-- On an object, the missing fields are the required fields whose value is falsy, in
the order of the required list. -/
theorem missingFields_obj (fields : List (String × JVal)) (required : List String) :
    missingFields (.obj fields) required =
      .ok (required.filter (fun f => !((assocGet fields f).getD .undefined).truthy)) := by
  induction required with
  | nil => rfl
  | cons f rest ih =>
    simp only [missingFields, JVal.getProp, ih, List.filter_cons]

/-- Validation of an object fails exactly when some required field is falsy (absent,
`null`, `false`, `0`, `NaN` or `''`), and then lists all falsy fields in order. -/
theorem validateRequiredFields_obj (fields : List (String × JVal)) (required : List String) :
    validateRequiredFields (.obj fields) required =
      if (required.filter (fun f => !((assocGet fields f).getD .undefined).truthy)).length > 0
      then .error (JErr.plain ("Missing required fields: " ++ ", ".intercalate
        (required.filter (fun f => !((assocGet fields f).getD .undefined).truthy))))
      else .ok () := by
  simp only [validateRequiredFields, missingFields_obj]

/-- C3 (evaluation at the failing input): the body supplies `name`, `category` and
`price`, the price being `0`; `validateRequiredFields` throws "Missing required fields:
price" and `createProduct` answers with that message. -/
theorem validateRequiredFields_rejects_zero_price :
    freeBody.hasKey "name" = true ∧ freeBody.hasKey "category" = true ∧
    freeBody.hasKey "price" = true ∧
    validateRequiredFields freeBody ["name", "category", "price"] =
      .error (JErr.plain "Missing required fields: price") ∧
    (createProduct freeEvent demoWorld).1.body.field "message" =
      .str "Missing required fields: price" := by
  refine ⟨by decide, by decide, by decide, by rfl, by rfl⟩

/-- C4 (evaluation at the failing input): a create request whose body lacks all three
required fields is answered with status 500 and the error "Failed to create product",
not with 400; no store call is issued. -/
theorem createProduct_missing_fields_is_500 :
    (createProduct emptyBodyEvent demoWorld).1.statusCode = 500 ∧
    (createProduct emptyBodyEvent demoWorld).1.body.field "error" =
      .str "Failed to create product" ∧
    (createProduct emptyBodyEvent demoWorld).1.body.field "message" =
      .str "Missing required fields: name, category, price" ∧
    (createProduct emptyBodyEvent demoWorld).2.calls.length = 0 := by
  refine ⟨by decide, by rfl, by rfl, by decide⟩

/-- C5 (evaluation at the failing input): a create request with `name`, `category` and
`price` all present, the price being `0`, on a store that accepts every call: the
response is 500, not 201, and nothing is stored. -/
theorem createProduct_zero_price_not_created :
    demoWorld.accepts 1 ∧
    (createProduct freeEvent demoWorld).1.statusCode = 500 ∧
    (createProduct freeEvent demoWorld).2.table.length = 0 ∧
    (createProduct freeEvent demoWorld).2.calls.length = 0 := by
  refine ⟨fun _ _ _ => rfl, by decide, by decide, by decide⟩

theorem getProp_error_code (data : JVal) (field : String) (e : JErr)
    (h : data.getProp field = .error e) : e.code = none := by
  cases data <;> simp only [JVal.getProp] at h <;> first
    | (injection h with h; subst h; rfl)
    | cases h

theorem missingFields_error_code (data : JVal) (required : List String) (e : JErr)
    (h : missingFields data required = .error e) : e.code = none := by
  induction required with
  | nil => cases h
  | cons f rest ih =>
    simp only [missingFields] at h
    cases hp : data.getProp f with
    | error e1 =>
      rw [hp] at h
      injection h with h
      subst h
      exact getProp_error_code data f e1 hp
    | ok v =>
      rw [hp] at h
      cases hm : missingFields data rest with
      | error e2 =>
        rw [hm] at h
        injection h with h
        subst h
        exact ih hm
      | ok ms =>
        rw [hm] at h
        cases h

/-- What `validateRequiredFields` throws is a plain error, without a `code`. -/
theorem validateRequiredFields_error_code (data : JVal) (required : List String) (e : JErr)
    (h : validateRequiredFields data required = .error e) : e.code = none := by
  unfold validateRequiredFields at h
  cases hm : missingFields data required with
  | error e1 =>
    rw [hm] at h
    injection h with h
    subst h
    exact missingFields_error_code data required e1 hm
  | ok ms =>
    rw [hm] at h
    by_cases hl : ms.length > 0
    · simp only [hl, if_true] at h
      injection h with h
      subst h
      rfl
    · simp only [hl, if_false] at h
      cases h

/-- Every create request whose body fails validation is answered with status 500, and
the world is left as it was: no store call, no change to the table. -/
theorem createProduct_invalid_body (ev : Event) (w : World) (body : JVal) (e : JErr)
    (hbody : ev.parsedBody = .ok body)
    (hinvalid : validateRequiredFields body ["name", "category", "price"] = .error e) :
    (createProduct ev w).1.statusCode = 500 ∧ (createProduct ev w).2 = w := by
  have hcode := validateRequiredFields_error_code body _ e hinvalid
  simp [createProduct, createProductTry, createProductItem, hbody, hinvalid, hcode,
    createResponse]

theorem find_hasKey_none (t : List Row) (k : String × ℚ)
    (h : ∀ r ∈ t, ¬(r.productID = k.1 ∧ r.version = k.2)) :
    t.find? (fun r => r.hasKey k) = none ∧ t.filter (fun r => !r.hasKey k) = t := by
  have hk : ∀ r ∈ t, r.hasKey k = false := by
    intro r hr
    have := h r hr
    simp only [Row.hasKey, Bool.and_eq_false_iff, decide_eq_false_iff_not]
    tauto
  refine ⟨?_, ?_⟩
  · rw [List.find?_eq_none]
    intro r hr
    simp [hk r hr]
  · rw [List.filter_eq_self]
    intro r hr
    simp [hk r hr]

theorem Store.put_fresh (t : List Row) (tn : Option String) (item : JVal) (row : Row)
    (hrow : Row.ofItem item = some row)
    (h : ∀ r ∈ t, ¬(r.productID = row.productID ∧ r.version = row.version)) :
    Store.put t { TableName := tn, Item := item, ConditionExpression := some notExistsCond } =
      .ok (t ++ [row]) := by
  obtain ⟨h1, h2⟩ := find_hasKey_none t (row.productID, row.version) h
  simp [Store.put, hrow, h1, h2, notExistsCond, Cond.eval]

/-- The success path of `createProduct`: the body parses and every required field is
truthy, price and stock coerce to numbers, no row has the generated key, and the store
accepts the call.  Then the response is 201; the returned product has `Version`,
`CreatedAt` and `UpdatedAt` equal to the one timestamp read, the supplied `Name` and
`Category`, `Price = Number(price)`, `Description` the supplied one when truthy and `''`
otherwise, `Stock = Number(stock || 0)`; exactly one store call is issued, a `put` of that
same product through the write client; and the table gains the row marshalled from it. -/
theorem createProduct_created (ev : Event) (w : World) (body : JVal) (price stock : JNum)
    (hbody : ev.parsedBody = .ok body)
    (hvalid : validateRequiredFields body ["name", "category", "price"] = .ok ())
    (hprice : w.cfg.toNumber (body.prop "price") = .ok price)
    (hstock : w.cfg.toNumber
      (if (body.prop "stock").truthy then body.prop "stock" else JVal.int 0) = .ok stock)
    (hfree : ∀ r ∈ w.table, ¬(r.productID = w.cfg.uuids w.uuidCount ∧
      r.version = (w.cfg.clock w.ticks : ℚ)))
    (hacc : w.accepts 1) :
    ∃ product row wc,
      (createProduct ev w).1.statusCode = 201 ∧
      (createProduct ev w).1.body.field "product" = product ∧
      product.field "ProductID" = .str (w.cfg.uuids w.uuidCount) ∧
      product.field "Version" = JVal.int (w.cfg.clock w.ticks) ∧
      product.field "CreatedAt" = JVal.int (w.cfg.clock w.ticks) ∧
      product.field "UpdatedAt" = JVal.int (w.cfg.clock w.ticks) ∧
      product.field "Name" = body.prop "name" ∧
      product.field "Category" = body.prop "category" ∧
      product.field "Price" = .num price ∧
      product.field "Description" =
        (if (body.prop "description").truthy then body.prop "description" else .str "") ∧
      product.field "Stock" = .num stock ∧
      (createProduct ev w).2.calls = w.calls ++ [⟨(getWriteClient wc).1,
        .put { TableName := w.cfg.TABLE_NAME, Item := product,
               ConditionExpression := some notExistsCond }⟩] ∧
      Row.ofItem product = some row ∧
      (createProduct ev w).2.table = w.table ++ [row] := by
  obtain ⟨product, x, w1, hitem, hprod, hcfg, htable, hcalls, -⟩ :=
    createProductItem_ok ev w body price stock hbody hvalid hprice hstock
  have htry := createProductTry_of_item ev w product w1 hitem
  have hv := hacc 0 (by decide)
  simp only [Nat.add_zero] at hv
  obtain ⟨attrs, hattrs⟩ := ofItem_product (w.cfg.uuids w.uuidCount) (w.cfg.clock w.ticks)
    [("Name", body.prop "name"), ("Category", body.prop "category"), ("Price", .num price),
      ("Description",
        if (body.prop "description").truthy then body.prop "description" else .str ""),
      ("Stock", .num stock), ("CreatedAt", JVal.int (w.cfg.clock w.ticks)),
      ("UpdatedAt", JVal.int (w.cfg.clock w.ticks)), ("ExpiresAt", x)]
  rw [← hprod] at hattrs
  have hput := Store.put_fresh w.table w.cfg.TABLE_NAME product _ hattrs hfree
  rw [Client.put_accepted _ _ _ (by simp [hcfg, hcalls, hv])] at htry
  simp only [getWriteClient_table, htable, hput, getWriteClient_calls, hcalls] at htry
  refine ⟨product, _, w1, ?_, ?_, ?_, ?_, ?_, ?_, ?_, ?_, ?_, ?_, ?_, ?_, hattrs, ?_⟩
  · simp [createProduct, htry, createResponse]
  · simp [createProduct, htry, createResponse, JVal.field, assocGet]
  all_goals first
    | (subst hprod; simp [JVal.field, assocGet])
    | simp [createProduct, htry]

/-! ### The write operations that keep to the write client -/

theorem createProductItem_calls (ev : Event) (w : World) :
    (createProductItem ev w).2.calls = w.calls := by
  unfold createProductItem
  split
  · rfl
  · split
    · rfl
    · dsimp only
      split
      · rfl
      · split
        · rfl
        · exact (expiresAt_frame _ _).2.2.1

theorem createProduct_world (ev : Event) (w : World) :
    (createProduct ev w).2 = (createProductTry ev w).2 := by
  unfold createProduct
  split
  · next h => rw [h]
  · next h =>
    rw [h]
    split <;> rfl

/-- Every store call `createProduct` issues (at most one, a `put`) is carried by the
client `getWriteClient` returns. -/
theorem createProduct_through_write_client (ev : Event) (w : World) :
    (createProduct ev w).2.calls = w.calls ∨
    ∃ req, (createProduct ev w).2.calls =
      w.calls ++ [⟨(getWriteClient (createProduct ev w).2).1, .put req⟩] := by
  rw [createProduct_world]
  have hcalls := createProductItem_calls ev w
  unfold createProductTry
  cases hitem : createProductItem ev w with
  | mk res w1 =>
    rw [hitem] at hcalls
    cases res with
    | error e => exact Or.inl hcalls
    | ok product =>
      right
      refine ⟨{ TableName := w.cfg.TABLE_NAME, Item := product,
                ConditionExpression := some notExistsCond }, ?_⟩
      have ht := Client.put_trace (getWriteClient w1).1
        { TableName := w.cfg.TABLE_NAME, Item := product,
          ConditionExpression := some notExistsCond } (getWriteClient w1).2
      have hw : ∀ x : Except JErr Unit × World,
          (match x with
            | (.error e, w2) => ((.error e : Except JErr Response), w2)
            | (.ok _, w2) =>
              (.ok (createResponse w2 201 (.obj [
                ("message", .str "Product created successfully"),
                ("product", product),
                ("metadata", .obj [("usedDAX", .bool false), ("operation", .str "write")])])),
                w2)).2 = x.2 := by
        intro x
        obtain ⟨r, w2⟩ := x
        cases r <;> rfl
      simp only [hw]
      have hc := getWriteClient_of_some
        ((getWriteClient w1).1.put
          { TableName := w.cfg.TABLE_NAME, Item := product,
            ConditionExpression := some notExistsCond } (getWriteClient w1).2).2
        (getWriteClient w1).1 (by rw [ht.2, getWriteClient_memo])
      rw [hc, ht.1, getWriteClient_calls]
      exact congrArg (fun l => l ++ [_]) hcalls

theorem updateProduct_world (ev : Event) (w : World) :
    (updateProduct ev w).2 = (updateProductTry ev w).2 := by
  unfold updateProduct
  split
  · next h => rw [h]
  · next h => rw [h]

/-- Every store call `updateProduct` issues (at most one, an `update`) is carried by the
client `getWriteClient` returns. -/
theorem updateProduct_through_write_client (ev : Event) (w : World) :
    (updateProduct ev w).2.calls = w.calls ∨
    ∃ req, (updateProduct ev w).2.calls =
      w.calls ++ [⟨(getWriteClient (updateProduct ev w).2).1, .update req⟩] := by
  rw [updateProduct_world]
  unfold updateProductTry
  split
  · exact Or.inl rfl
  · split
    · exact Or.inl rfl
    · dsimp only
      split
      · exact Or.inl rfl
      · next params _ =>
        right
        refine ⟨params, ?_⟩
        have ht := Client.update_trace (getWriteClient w.dateNow.2).1 params
          (getWriteClient w.dateNow.2).2
        have hw : ∀ x : Except JErr JVal × World,
            (match x with
              | (.error e, w1) => ((.error e : Except JErr Response), w1)
              | (.ok attributes, w1) =>
                (.ok (createResponse w1 200 (.obj [
                  ("message", .str "Product updated successfully"),
                  ("product", attributes),
                  ("metadata", .obj [
                    ("usedDAX", .bool false),
                    ("operation", .str "write"),
                    ("note", .str "DAX cache will be invalidated automatically")])])), w1)).2
              = x.2 := by
          intro x
          obtain ⟨r, w2⟩ := x
          cases r <;> rfl
        simp only [hw]
        have hc := getWriteClient_of_some
          ((getWriteClient w.dateNow.2).1.update params (getWriteClient w.dateNow.2).2).2
          (getWriteClient w.dateNow.2).1 (by rw [ht.2, getWriteClient_memo])
        rw [hc, ht.1, getWriteClient_calls]
        rfl

theorem deleteProduct_world (ev : Event) (w : World) :
    (deleteProduct ev w).2 = (deleteProductTry ev w).2 := by
  unfold deleteProduct
  split
  · next h => rw [h]
  · next h => rw [h]

/-- With a `version` query parameter, the one store call `deleteProduct` issues (a
`delete`) is carried by the client `getWriteClient` returns. -/
theorem deleteProduct_version_through_write_client (ev : Event) (w : World)
    (hid : optTruthy ev.pathId = true) (hver : optTruthy (ev.queryParam "version") = true) :
    ∃ req, (deleteProduct ev w).2.calls =
      w.calls ++ [⟨(getWriteClient (deleteProduct ev w).2).1, .delete req⟩] := by
  rw [deleteProduct_world]
  simp only [deleteProductTry, hid, hver, Bool.not_true, Bool.false_eq_true, if_false, if_true]
  refine ⟨{ TableName := w.cfg.TABLE_NAME
            Key := [("ProductID", .str (ev.pathId.getD "")),
              ("Version", .num (w.cfg.strToNumber ((ev.queryParam "version").getD "")))] }, ?_⟩
  have ht := Client.delete_trace (getWriteClient w).1
    { TableName := w.cfg.TABLE_NAME
      Key := [("ProductID", .str (ev.pathId.getD "")),
        ("Version", .num (w.cfg.strToNumber ((ev.queryParam "version").getD "")))] }
    (getWriteClient w).2
  have hw : ∀ x : Except JErr Unit × World,
      (match x with
        | (.error e, w1) => ((.error e : Except JErr Response), w1)
        | (.ok _, w1) =>
          (.ok (createResponse w1 200 (.obj [
            ("message", .str "Product deleted successfully"),
            ("metadata", .obj [("usedDAX", .bool false), ("operation", .str "write")])])),
            w1)).2 = x.2 := by
    intro x
    obtain ⟨r, w2⟩ := x
    cases r <;> rfl
  simp only [hw]
  have hc := getWriteClient_of_some
    ((getWriteClient w).1.delete
      { TableName := w.cfg.TABLE_NAME
        Key := [("ProductID", .str (ev.pathId.getD "")),
          ("Version", .num (w.cfg.strToNumber ((ev.queryParam "version").getD "")))] }
      (getWriteClient w).2).2
    (getWriteClient w).1 (by rw [ht.2, getWriteClient_memo])
  rw [hc, ht.1, getWriteClient_calls]

/-! ### C6: `getProduct` returns the latest version -/

/-- A `query` the store's verdict lets through is answered from the table. -/
theorem Client.query_accepted (c : Client) (req : QueryReq) (w : World)
    (hv : w.cfg.storeVerdict w.calls.length (.query req) = none) :
    c.query req w = (Store.query w.table req, { w with calls := w.calls ++ [⟨c, .query req⟩] }) := by
  simp only [Client.query, World.call, hv]

theorem mem_partitionRows (t : List Row) (pid : String) (forward : Bool) (r : Row) :
    r ∈ partitionRows t pid forward ↔ r ∈ t ∧ r.productID = pid := by
  unfold partitionRows
  split <;> simp [List.mem_insertionSort]

/-- The first row of a partition read in descending order is a row of that partition
with the greatest version. -/
theorem partitionRows_desc_head (t : List Row) (pid : String) (a : Row) (rest : List Row)
    (h : partitionRows t pid false = a :: rest) :
    a ∈ t ∧ a.productID = pid ∧ ∀ r ∈ t, r.productID = pid → r.version ≤ a.version := by
  have hmem : ∀ r, r ∈ a :: rest ↔ r ∈ t ∧ r.productID = pid := by
    intro r
    rw [← h]
    exact mem_partitionRows t pid false r
  have ha := (hmem a).1 (List.mem_cons_self a rest)
  refine ⟨ha.1, ha.2, ?_⟩
  intro r hr hp
  haveI : IsTotal Row (fun a b : Row => b.version ≤ a.version) := ⟨fun a b => le_total _ _⟩
  haveI : IsTrans Row (fun a b : Row => b.version ≤ a.version) :=
    ⟨fun a b c h1 h2 => le_trans h2 h1⟩
  have hsorted : List.Sorted (fun a b : Row => b.version ≤ a.version) (a :: rest) := by
    rw [← h]
    simp only [partitionRows]
    exact List.sorted_insertionSort _ _
  rcases List.mem_cons.1 ((hmem r).2 ⟨hr, hp⟩) with heq | hin
  · rw [heq]
  · exact List.rel_of_sorted_cons hsorted r hin

theorem limitCount_one : limitCount (some (.fin 1)) = some (some 1) := by
  decide

/-- What the store answers to the query of `getProduct`. -/
theorem Store.query_latest (t : List Row) (tn : Option String) (pid : String) :
    Store.query t (latestQuery tn pid) =
      .ok { Items := some (((partitionRows t pid false).take 1).map Row.toItem)
            Count := ((partitionRows t pid false).take 1).length
            LastEvaluatedKey := (page (partitionRows t pid false) (some 1)).2 } := by
  simp only [Store.query, latestQuery, assocGet, limitCount_one, if_true, page]
  rfl

/-- What `getProduct` answers on a store that accepts the query, in terms of the rows of
the partition read in descending order: 404 when there are none, otherwise 200 with the
first of them. -/
theorem getProduct_answer (ev : Event) (w : World) (id : String) (rows : List Row)
    (hid : ev.pathId = some id) (hne : id ≠ "") (hacc : w.accepts 1)
    (hrows : partitionRows w.table id false = rows) :
    (getProduct ev w).1.statusCode = (if rows.isEmpty then 404 else 200) ∧
    ∀ a rest, rows = a :: rest → (getProduct ev w).1.body.field "product" = a.toItem := by
  have hv := hacc 0 (by decide)
  simp only [Nat.add_zero] at hv
  have hcfg : (getReadClient w).2.dateNow.2.cfg = w.cfg := by simp [World.dateNow]
  have htab : (getReadClient w).2.dateNow.2.table = w.table := by simp [World.dateNow]
  have hcalls : (getReadClient w).2.dateNow.2.calls = w.calls := by simp [World.dateNow]
  simp only [getProduct, getProductTry, hid, hne, if_false]
  generalize (getReadClient w).2.dateNow.2 = w0 at hcfg htab hcalls ⊢
  rw [Client.query_accepted _ _ w0 (by rw [hcfg, hcalls]; exact hv _)]
  simp only [htab, Store.query_latest, hrows]
  cases rows with
  | nil => simp [createResponse]
  | cons a rest => simp [createResponse, JVal.field, assocGet]

theorem partitionRows_eq_nil (t : List Row) (pid : String) (forward : Bool)
    (h : ∀ r ∈ t, r.productID ≠ pid) : partitionRows t pid forward = [] := by
  rw [List.eq_nil_iff_forall_not_mem]
  intro r hr
  have := (mem_partitionRows t pid forward r).1 hr
  exact h r this.1 this.2

/-- C6: for a non-empty path id and a store that accepts the call, `getProduct` answers
404 when no row of the table has that `ProductID`; otherwise it answers 200 and the
product in the body is a row of the table with that `ProductID` whose `Version` is
greater than or equal to the `Version` of every row with that `ProductID`. -/
theorem getProduct_latest (ev : Event) (w : World) (id : String)
    (hid : ev.pathId = some id) (hne : id ≠ "") (hacc : w.accepts 1) :
    ((∀ r ∈ w.table, r.productID ≠ id) → (getProduct ev w).1.statusCode = 404) ∧
    ((∃ r ∈ w.table, r.productID = id) →
      ∃ r ∈ w.table, r.productID = id ∧
        (∀ r2 ∈ w.table, r2.productID = id → r2.version ≤ r.version) ∧
        (getProduct ev w).1.statusCode = 200 ∧
        (getProduct ev w).1.body.field "product" = r.toItem) := by
  refine ⟨?_, ?_⟩
  · intro hnone
    have h := (getProduct_answer ev w id [] hid hne hacc
      (partitionRows_eq_nil w.table id false hnone)).1
    simpa using h
  · rintro ⟨r, hr, hp⟩
    cases hrows : partitionRows w.table id false with
    | nil =>
      have := (mem_partitionRows w.table id false r).2 ⟨hr, hp⟩
      rw [hrows] at this
      cases this
    | cons a rest =>
      obtain ⟨ha, hpa, hmax⟩ := partitionRows_desc_head w.table id a rest hrows
      have h := getProduct_answer ev w id (a :: rest) hid hne hacc hrows
      exact ⟨a, ha, hpa, hmax, by simpa using h.1, h.2 a rest rfl⟩

/-- Witness for C6: versions 100, 200 and 150 of `p1` are stored; `getProduct` answers 200
with the row of version 200. -/
theorem getProduct_latest_witness :
    getP1Event.pathId = some "p1" ∧ sampleWorld.accepts 1 ∧
    (∃ r ∈ sampleWorld.table, r.productID = "p1" ∧
      (∀ r2 ∈ sampleWorld.table, r2.productID = "p1" → r2.version ≤ r.version) ∧
      (getProduct getP1Event sampleWorld).1.statusCode = 200 ∧
      (getProduct getP1Event sampleWorld).1.body.field "product" = r.toItem) ∧
    ((getProduct getP1Event sampleWorld).1.body.field "product").field "Version" =
      .num (.fin 200) :=
  ⟨rfl, fun _ _ _ => rfl,
    (getProduct_latest getP1Event sampleWorld "p1" rfl (by decide) (fun _ _ _ => rfl)).2
      ⟨⟨"p1", 100, _⟩, List.mem_cons_self _ _, rfl⟩,
    by rfl⟩

/-! ### C7: `deleteProduct` without a version sends the whole history in one batch -/

/-- A `batchWrite` the store's verdict lets through is answered by the store's batch
rules. -/
theorem Client.batchWrite_accepted (c : Client) (req : BatchWriteReq) (w : World)
    (hv : w.cfg.storeVerdict w.calls.length (.batchWrite req) = none) :
    c.batchWrite req w =
      match Store.batchWrite w.table req (w.cfg.batchProcesses w.calls.length) with
      | .error e => (.error e, { w with calls := w.calls ++ [⟨c, .batchWrite req⟩] })
      | .ok t => (.ok (), { w with calls := w.calls ++ [⟨c, .batchWrite req⟩], table := t }) := by
  simp only [Client.batchWrite, World.call, hv]

/-- What the store answers to the enumeration query of `deleteProduct`. -/
theorem Store.query_versions (t : List Row) (tn : Option String) (pid : String) :
    Store.query t (versionsQuery tn pid) =
      .ok { Items := some ((partitionRows t pid true).map keyItem)
            Count := (partitionRows t pid true).length
            LastEvaluatedKey := none } := by
  have hproj : project [("#version", "Version")] (some ["ProductID", "#version"]) = keyItem := by
    funext r
    simp [project, assocGet, Row.hasAttr, Row.getAttr, keyItem]
  simp [Store.query, versionsQuery, assocGet, limitCount, page, hproj]

theorem batchKeys_keyItems (rows : List Row) :
    batchKeys (deleteRequests (rows.map keyItem)) =
      some (rows.map (fun r => (r.productID, r.version))) := by
  induction rows with
  | nil => rfl
  | cons r rest ih =>
    simp only [deleteRequests, List.map_cons, batchKeys] at ih ⊢
    simp only [ih]
    simp [keyItem, JVal.field, assocGet, keyOf]

/-- One delete request is built per enumerated item. -/
theorem deleteRequests_length (items : List JVal) :
    (deleteRequests items).length = items.length := by
  simp [deleteRequests]

/-- A partition read through a query has as many rows as the table holds for the id. -/
theorem partitionRows_length (t : List Row) (pid : String) (forward : Bool) :
    (partitionRows t pid forward).length =
      (t.filter (fun r => decide (r.productID = pid))).length := by
  unfold partitionRows
  split <;> simp [List.length_insertionSort]

theorem foldl_filter_keys (ks : List (String × ℚ)) (t : List Row) :
    ks.foldl (fun acc k => acc.filter (fun r => !r.hasKey k)) t =
      t.filter (fun r => !ks.any (fun k => r.hasKey k)) := by
  induction ks generalizing t with
  | nil => simp
  | cons k rest ih =>
    simp only [List.foldl_cons, ih, List.filter_filter, List.any_cons]
    congr 1
    funext r
    cases r.hasKey k <;> simp

/-- Deleting the keys of all rows of a partition leaves exactly the rows of the other
partitions. -/
theorem delete_partition (t : List Row) (pid : String) :
    ((partitionRows t pid true).map (fun r => (r.productID, r.version))).foldl
        (fun acc k => acc.filter (fun r => !r.hasKey k)) t =
      t.filter (fun r => decide (r.productID ≠ pid)) := by
  rw [foldl_filter_keys]
  apply List.filter_congr
  intro r hr
  by_cases hp : r.productID = pid
  · have hmem : r ∈ partitionRows t pid true := (mem_partitionRows t pid true r).2 ⟨hr, hp⟩
    have : ((partitionRows t pid true).map (fun r => (r.productID, r.version))).any
        (fun k => r.hasKey k) = true := by
      rw [List.any_eq_true]
      exact ⟨(r.productID, r.version), List.mem_map.2 ⟨r, hmem, rfl⟩, by simp [Row.hasKey]⟩
    simp [this, hp]
  · have : ((partitionRows t pid true).map (fun r => (r.productID, r.version))).any
        (fun k => r.hasKey k) = false := by
      rw [List.any_eq_false]
      intro k hk
      obtain ⟨r2, hr2, rfl⟩ := List.mem_map.1 hk
      have h2 := ((mem_partitionRows t pid true r2).1 hr2).2
      simp only [Row.hasKey, Bool.and_eq_true, decide_eq_true_eq, not_and]
      intro h1
      exact absurd (h1.trans h2) hp
    simp [this, hp]

/-- The enumeration-and-batch-delete branch when the store accepts both calls, the id has
at most 25 versions and the store processes every key of the batch: it succeeds, the
table keeps exactly the rows of the other products, the enumeration goes through the read
client, and the batch delete (through the given write client) is issued only when there
is something to delete. -/
theorem deleteAllVersions_accepted (pid : String) (wc : Client) (w : World)
    (hacc : w.accepts 2)
    (hlen : (w.table.filter (fun r => decide (r.productID = pid))).length ≤ 25)
    (hproc : ∀ k, w.cfg.batchProcesses (w.calls.length + 1) k = true) :
    ∃ w1, deleteAllVersions pid wc w = (.ok (), w1) ∧ w1.cfg = w.cfg ∧
      w1.table = w.table.filter (fun r => decide (r.productID ≠ pid)) ∧
      ((∀ r ∈ w.table, r.productID ≠ pid) →
        w1.calls = w.calls ++
          [⟨(getReadClient w).1, .query (versionsQuery w.cfg.TABLE_NAME pid)⟩]) ∧
      ((∃ r ∈ w.table, r.productID = pid) →
        w1.calls = w.calls ++
          [⟨(getReadClient w).1, .query (versionsQuery w.cfg.TABLE_NAME pid)⟩,
           ⟨wc, .batchWrite
             { TableName := w.cfg.TABLE_NAME
               DeleteRequests :=
                 deleteRequests ((partitionRows w.table pid true).map keyItem) }⟩]) := by
  have hv0 := hacc 0 (by decide)
  have hv1 := hacc 1 (by decide)
  simp only [Nat.add_zero] at hv0
  rw [← partitionRows_length w.table pid true] at hlen
  have hcfg : (getReadClient w).2.cfg = w.cfg := by simp
  have htab : (getReadClient w).2.table = w.table := by simp
  have hcalls : (getReadClient w).2.calls = w.calls := by simp
  simp only [deleteAllVersions]
  generalize (getReadClient w).2 = w0 at hcfg htab hcalls ⊢
  rw [Client.query_accepted _ _ w0 (by rw [hcfg, hcalls]; exact hv0 _)]
  simp only [htab, Store.query_versions]
  cases hrows : partitionRows w.table pid true with
  | nil =>
    have hnone : ∀ r ∈ w.table, r.productID ≠ pid := by
      intro r hr hp
      have := (mem_partitionRows w.table pid true r).2 ⟨hr, hp⟩
      rw [hrows] at this
      cases this
    refine ⟨_, rfl, hcfg, ?_, ?_, ?_⟩
    · simp only [List.map_nil, htab]
      symm
      rw [List.filter_eq_self]
      intro r hr
      simpa using hnone r hr
    · intro _
      simp [hcalls]
    · rintro ⟨r, hr, hp⟩
      exact absurd hp (hnone r hr)
  | cons a rest =>
    have ha := (mem_partitionRows w.table pid true a).1 (by rw [hrows]; exact List.mem_cons_self _ _)
    rw [hrows] at hlen
    simp only [List.map_cons]
    rw [show keyItem a :: List.map keyItem rest = List.map keyItem (a :: rest) from rfl]
    rw [Client.batchWrite_accepted _ _ _ (by simp only [List.length_append, List.length_singleton, hcalls, hcfg]; exact hv1 _)]
    have hsize0 : ¬ (deleteRequests (List.map keyItem (a :: rest))).length = 0 := by
      rw [deleteRequests_length, List.length_map]
      simp
    have hsize : ¬ 25 < (deleteRequests (List.map keyItem (a :: rest))).length := by
      rw [deleteRequests_length, List.length_map]
      omega
    have hall : ∀ (cs : List Call) (ks : List (String × ℚ)), cs.length = w.calls.length + 1 →
        ks.filter (w0.cfg.batchProcesses cs.length) = ks := by
      intro cs ks hcs
      rw [List.filter_eq_self]
      intro k _
      rw [hcs, hcfg]
      exact hproc k
    simp only [Store.batchWrite, hsize0, hsize, if_false, batchKeys_keyItems, htab]
    rw [hall _ _ (by simp [hcalls]), ← hrows, delete_partition]
    refine ⟨_, rfl, hcfg, rfl, ?_, ?_⟩
    · intro hnone
      exact absurd ha.2 (hnone a ha.1)
    · intro _
      simp [hcalls]

/-- The enumeration-and-batch-delete branch when the store accepts both calls and the id
has more than 25 versions: the one batch is refused, the branch throws, and the table is
left as it was. -/
theorem deleteAllVersions_too_many (pid : String) (wc : Client) (w : World)
    (hacc : w.accepts 2)
    (hlen : 25 < (w.table.filter (fun r => decide (r.productID = pid))).length) :
    ∃ w1, deleteAllVersions pid wc w =
        (.error (validationException "Too many items requested for the BatchWriteItem call"),
          w1) ∧
      w1.cfg = w.cfg ∧ w1.table = w.table := by
  have hv0 := hacc 0 (by decide)
  have hv1 := hacc 1 (by decide)
  simp only [Nat.add_zero] at hv0
  rw [← partitionRows_length w.table pid true] at hlen
  have hcfg : (getReadClient w).2.cfg = w.cfg := by simp
  have htab : (getReadClient w).2.table = w.table := by simp
  have hcalls : (getReadClient w).2.calls = w.calls := by simp
  simp only [deleteAllVersions]
  generalize (getReadClient w).2 = w0 at hcfg htab hcalls ⊢
  rw [Client.query_accepted _ _ w0 (by rw [hcfg, hcalls]; exact hv0 _)]
  simp only [htab, Store.query_versions]
  cases hrows : partitionRows w.table pid true with
  | nil =>
    rw [hrows] at hlen
    simp at hlen
  | cons a rest =>
    rw [hrows] at hlen
    simp only [List.map_cons]
    rw [show keyItem a :: List.map keyItem rest = List.map keyItem (a :: rest) from rfl]
    rw [Client.batchWrite_accepted _ _ _ (by simp only [List.length_append, List.length_singleton, hcalls, hcfg]; exact hv1 _)]
    have hsize0 : ¬ (deleteRequests (List.map keyItem (a :: rest))).length = 0 := by
      rw [deleteRequests_length, List.length_map]
      simp
    have hsize : 25 < (deleteRequests (List.map keyItem (a :: rest))).length := by
      rw [deleteRequests_length, List.length_map]
      exact hlen
    simp only [Store.batchWrite, hsize0, hsize, if_false, if_true]
    exact ⟨_, rfl, hcfg, by first | exact htab | rfl⟩

/-- What holds of the claimed behaviour: for a non-empty path id with at most 25 stored
versions, no `version` query parameter, and a store that accepts the calls and processes
every key of the batch, `deleteProduct` answers 200; afterwards the table holds exactly
the rows it held for other `ProductID`s (none with this id, the others untouched); when
the table held no row for the id, the only store call issued is the enumerating query (no
delete) and the table is unchanged; and a following `getProduct` for the id answers
404. -/
theorem deleteProduct_within_one_batch (ev : Event) (w : World) (id : String)
    (hid : ev.pathId = some id) (hne : id ≠ "")
    (hnov : optTruthy (ev.queryParam "version") = false) (hacc : w.accepts 3)
    (hlen : (w.table.filter (fun r => decide (r.productID = id))).length ≤ 25)
    (hproc : ∀ k, w.cfg.batchProcesses (w.calls.length + 1) k = true) :
    (deleteProduct ev w).1.statusCode = 200 ∧
    (deleteProduct ev w).2.table = w.table.filter (fun r => decide (r.productID ≠ id)) ∧
    (∀ r ∈ (deleteProduct ev w).2.table, r.productID ≠ id) ∧
    ((∀ r ∈ w.table, r.productID ≠ id) →
      (deleteProduct ev w).2.calls = w.calls ++
        [⟨(getReadClient (getWriteClient w).2).1, .query (versionsQuery w.cfg.TABLE_NAME id)⟩] ∧
      (deleteProduct ev w).2.table = w.table) ∧
    (∀ ev2 : Event, ev2.pathId = some id →
      (getProduct ev2 (deleteProduct ev w).2).1.statusCode = 404) := by
  have hacc2 : (getWriteClient w).2.accepts 2 := by
    intro i hi op
    simp only [getWriteClient_cfg, getWriteClient_calls]
    exact hacc i (by omega) op
  obtain ⟨w1, hdel, hcfg, htab, hcalls0, hcalls1⟩ :=
    deleteAllVersions_accepted id (getWriteClient w).1 (getWriteClient w).2 hacc2
      (by simpa using hlen) (by simpa using hproc)
  simp only [getWriteClient_cfg, getWriteClient_table, getWriteClient_calls] at hcfg htab hcalls0 hcalls1
  have hres : deleteProduct ev w = (createResponse w1 200 (.obj [
        ("message", .str "Product deleted successfully"),
        ("metadata", .obj [("usedDAX", .bool false), ("operation", .str "write")])]), w1) := by
    have hid2 : optTruthy ev.pathId = true := by simp [hid, optTruthy, hne]
    simp [deleteProduct, deleteProductTry, hid2, hnov]
    simp [hid, hdel]
  have hnone : ∀ r ∈ w1.table, r.productID ≠ id := by
    intro r hr
    rw [htab] at hr
    simpa using (List.mem_filter.1 hr).2
  have hlen : w1.calls.length = w.calls.length + 1 ∨ w1.calls.length = w.calls.length + 2 := by
    by_cases h : ∃ r ∈ w.table, r.productID = id
    · right
      rw [hcalls1 h]
      simp
    · left
      rw [hcalls0 (by
        intro r hr hp
        exact h ⟨r, hr, hp⟩)]
      simp
  have hacc1 : w1.accepts 1 := by
    intro i hi op
    have hi0 : i = 0 := by omega
    subst hi0
    rw [hcfg, Nat.add_zero]
    rcases hlen with h | h
    · rw [h]
      exact hacc 1 (by decide) op
    · rw [h]
      exact hacc 2 (by decide) op
  rw [hres]
  refine ⟨rfl, htab, hnone, ?_, ?_⟩
  · intro h
    refine ⟨hcalls0 h, ?_⟩
    show w1.table = w.table
    rw [htab, List.filter_eq_self]
    intro r hr
    simpa using h r hr
  · intro ev2 hid2
    have h := (getProduct_answer ev2 w1 id [] hid2 hne hacc1
      (partitionRows_eq_nil w1.table id false hnone)).1
    simpa using h

/-- The spec's scenario: three versions of `p1` and one of `p2` are stored; after
`deleteProduct` for `p1` without a version only the row of `p2` is left, and a following
`getProduct` answers 404. -/
theorem deleteProduct_within_one_batch_witness :
    deleteAllEvent.pathId = some "p1" ∧ sampleWorld.accepts 3 ∧
    (sampleWorld.table.filter (fun r => decide (r.productID = "p1"))).length ≤ 25 ∧
    (deleteProduct deleteAllEvent sampleWorld).1.statusCode = 200 ∧
    (deleteProduct deleteAllEvent sampleWorld).2.table.map (fun r => (r.productID, r.version)) =
      [("p2", 120)] ∧
    (getProduct getAfterDeleteEvent (deleteProduct deleteAllEvent sampleWorld).2).1.statusCode =
      404 :=
  have h := deleteProduct_within_one_batch deleteAllEvent sampleWorld "p1" rfl (by decide) rfl
    (fun _ _ _ => rfl) (by decide) (fun _ => rfl)
  ⟨rfl, fun _ _ _ => rfl, by decide, h.1, by rw [h.2.1]; decide, h.2.2.2.2 getAfterDeleteEvent rfl⟩

/-- Whatever the number of versions over 25: for a non-empty path id with more than 25
stored versions, no `version` query parameter, and a store that accepts the calls,
`deleteProduct` answers 500 and the table is left as it was. -/
theorem deleteProduct_over_batch_limit (ev : Event) (w : World) (id : String)
    (hid : ev.pathId = some id) (hne : id ≠ "")
    (hnov : optTruthy (ev.queryParam "version") = false) (hacc : w.accepts 2)
    (hlen : 25 < (w.table.filter (fun r => decide (r.productID = id))).length) :
    (deleteProduct ev w).1.statusCode = 500 ∧
    (deleteProduct ev w).1.body.field "message" =
      .str "Too many items requested for the BatchWriteItem call" ∧
    (deleteProduct ev w).2.table = w.table := by
  have hacc2 : (getWriteClient w).2.accepts 2 := by
    intro i hi op
    simp only [getWriteClient_cfg, getWriteClient_calls]
    exact hacc i hi op
  obtain ⟨w1, hdel, -, htab⟩ :=
    deleteAllVersions_too_many id (getWriteClient w).1 (getWriteClient w).2 hacc2
      (by simpa using hlen)
  simp only [getWriteClient_table] at htab
  have hres : deleteProduct ev w = (createResponse w1 500 (.obj [
        ("error", .str "Failed to delete product"),
        ("message", .str "Too many items requested for the BatchWriteItem call")]), w1) := by
    have hid2 : optTruthy ev.pathId = true := by simp [hid, optTruthy, hne]
    simp [deleteProduct, deleteProductTry, hid2, hnov]
    simp [hid, hdel, validationException]
  rw [hres]
  exact ⟨rfl, by simp [createResponse, JVal.field, assocGet], htab⟩

/-- The same run on a store that leaves one key of the batch unprocessed: the sample rows
hold versions 100, 200 and 150 of `p1`, the store does not process the delete of version
200.  `deleteProduct` never reads the batch's result: it answers 200, the row of version
200 is still stored, and a following `getProduct` answers 200 with that row. -/
theorem deleteProduct_unprocessed_keys_stay :
    (deleteProduct deleteAllEvent unprocessedWorld).1.statusCode = 200 ∧
    (deleteProduct deleteAllEvent unprocessedWorld).2.table.map
        (fun r => (r.productID, r.version)) = [("p1", 200), ("p2", 120)] ∧
    (getProduct getAfterDeleteEvent
      (deleteProduct deleteAllEvent unprocessedWorld).2).1.statusCode = 200 ∧
    ((getProduct getAfterDeleteEvent
      (deleteProduct deleteAllEvent unprocessedWorld).2).1.body.field "product").field
        "Version" = .num (.fin 200) := by
  refine ⟨by decide, by decide, by decide, by rfl⟩

/-- C7 (evaluation at the failing input): the table holds 30 versions of `big` and the
store is reachable and processes whatever it accepts.  `deleteProduct` for `big` without
a `version` enumerates the versions, then issues one `batchWrite` carrying all 30 delete
requests; the store takes at most 25 requests in a batch and refuses it.  The answer is
500 with the store's message, the table still holds all 30 rows of `big`, and a following
`getProduct` for `big` answers 200 with version 30, not 404. -/
theorem deleteProduct_thirty_versions_stay :
    deleteBigEvent.pathId = some "big" ∧
    deleteBigEvent.queryParam "version" = none ∧
    (bigWorld.table.filter (fun r => decide (r.productID = "big"))).length = 30 ∧
    (deleteProduct deleteBigEvent bigWorld).2.calls.map (fun c => c.op.batchSize) =
      [none, some 30] ∧
    (deleteProduct deleteBigEvent bigWorld).1.statusCode = 500 ∧
    (deleteProduct deleteBigEvent bigWorld).1.body =
      .obj [("error", .str "Failed to delete product"),
        ("message", .str "Too many items requested for the BatchWriteItem call")] ∧
    (deleteProduct deleteBigEvent bigWorld).2.table = bigWorld.table ∧
    ((deleteProduct deleteBigEvent bigWorld).2.table.filter
      (fun r => decide (r.productID = "big"))).length = 30 ∧
    (getProduct getBigEvent (deleteProduct deleteBigEvent bigWorld).2).1.statusCode = 200 ∧
    ((getProduct getBigEvent (deleteProduct deleteBigEvent bigWorld).2).1.body.field
      "product").field "Version" = .num (.fin 30) := by
  refine ⟨rfl, rfl, by decide, by decide, by decide, by rfl, by rfl, by decide, by decide,
    by rfl⟩

/-! ### C8: the update `updateProduct` issues assigns the sort key -/

theorem toLowerCase_fields :
    toLowerCase "Name" = "name" ∧ toLowerCase "Category" = "category" ∧
    toLowerCase "Price" = "price" ∧ toLowerCase "Description" = "description" ∧
    toLowerCase "Stock" = "stock" := by
  decide

/-- The parameters `updateProduct` builds for an object body: the key, and `SET` clauses
that resolve to exactly the assignments the spec describes. -/
theorem updateParams_resolved (cfg : Config) (id : String) (fields : List (String × JVal))
    (ts : Int) (price stock : JNum)
    (hprice : cfg.toNumber ((JVal.obj fields).prop "price") = .ok price)
    (hstock : cfg.toNumber ((JVal.obj fields).prop "stock") = .ok stock) :
    ∃ req, updateParams cfg id (.obj fields) ts = .ok req ∧
      req.Key = [("ProductID", .str id),
        ("Version", if ((JVal.obj fields).prop "version").truthy
          then (JVal.obj fields).prop "version" else JVal.int ts)] ∧
      req.TableName = cfg.TABLE_NAME ∧
      req.ReturnValues = "ALL_NEW" ∧
      resolveClauses req.ExpressionAttributeNames req.ExpressionAttributeValues
        req.UpdateExpression = some (specAssignments ts (.obj fields) price stock) := by
  obtain ⟨h1, h2, h3, h4, h5⟩ := toLowerCase_fields
  simp only [JVal.prop, JVal.getProp] at hprice hstock
  simp only [updateParams, updatableFields, updateLoop, updateStep, h1, h2, h3, h4, h5,
    JVal.getProp, specAssignments, JVal.prop]
  by_cases c1 : ((assocGet fields "name").getD JVal.undefined).isUndefined = true <;>
  by_cases c2 : ((assocGet fields "category").getD JVal.undefined).isUndefined = true <;>
  by_cases c3 : ((assocGet fields "price").getD JVal.undefined).isUndefined = true <;>
  by_cases c4 : ((assocGet fields "description").getD JVal.undefined).isUndefined = true <;>
  by_cases c5 : ((assocGet fields "stock").getD JVal.undefined).isUndefined = true <;>
  simp [c1, c2, c3, c4, c5, hprice, hstock, resolveClauses, assocGet, assocSet]

/-- An `update` the store's verdict lets through is answered by the store's update
rules. -/
theorem Client.update_accepted (c : Client) (req : UpdateReq) (w : World)
    (hv : w.cfg.storeVerdict w.calls.length (.update req) = none) :
    c.update req w =
      match Store.update w.table req with
      | .error e => (.error e, { w with calls := w.calls ++ [⟨c, .update req⟩] })
      | .ok res =>
        (.ok res.2, { w with calls := w.calls ++ [⟨c, .update req⟩], table := res.1 }) := by
  simp only [Client.update, World.call, hv]

theorem assocGet_assocSet_same {β : Type} (l : List (String × β)) (k : String) (v : β) :
    assocGet (assocSet l k v) k = some v := by
  induction l with
  | nil => simp [assocSet, assocGet]
  | cons p rest ih =>
    obtain ⟨k1, x⟩ := p
    by_cases h : k1 = k
    · simp [assocSet, assocGet, h]
    · simp [assocSet, assocGet, h, ih]

theorem assocGet_assocSet_other {β : Type} (l : List (String × β)) (k m : String) (v : β)
    (hne : m ≠ k) : assocGet (assocSet l k v) m = assocGet l m := by
  induction l with
  | nil => simp [assocSet, assocGet, Ne.symm hne]
  | cons p rest ih =>
    obtain ⟨k1, x⟩ := p
    by_cases h : k1 = k
    · subst h
      simp [assocSet, assocGet, Ne.symm hne]
    · by_cases h2 : k1 = m
      · subst h2
        simp [assocSet, assocGet, h]
      · simp [assocSet, assocGet, h, h2, ih]

/-- Only an attribute outside the key can be written. -/
theorem setAttr_eq_some (r r2 : Row) (n : String) (v : JVal) (h : r.setAttr n v = some r2) :
    n ≠ "ProductID" ∧ n ≠ "Version" ∧ r2 = { r with attrs := assocSet r.attrs n v } := by
  unfold Row.setAttr at h
  split_ifs at h with hk
  injection h with h
  exact ⟨fun e => hk (Or.inl e), fun e => hk (Or.inr e), h.symm⟩

/-- Writing an attribute makes it read back as written. -/
theorem getAttr_setAttr_same (r r2 : Row) (n : String) (v : JVal)
    (h : r.setAttr n v = some r2) : r2.getAttr n = v := by
  obtain ⟨h1, h2, rfl⟩ := setAttr_eq_some r r2 n v h
  simp [Row.getAttr, h1, h2, assocGet_assocSet_same]

/-- Writing an attribute leaves every other attribute as it was. -/
theorem getAttr_setAttr_other (r r2 : Row) (n m : String) (v : JVal)
    (h : r.setAttr n v = some r2) (hne : m ≠ n) : r2.getAttr m = r.getAttr m := by
  obtain ⟨-, -, rfl⟩ := setAttr_eq_some r r2 n v h
  simp only [Row.getAttr, assocGet_assocSet_other _ _ _ _ hne]

/-- Partial-attribute semantics: attributes that are not assigned keep their values. -/
theorem applySets_frame (sets : List (String × JVal)) (r r2 : Row)
    (h : applySets r sets = some r2) (m : String) (hm : m ∉ sets.map Prod.fst) :
    r2.getAttr m = r.getAttr m := by
  induction sets generalizing r with
  | nil =>
    simp only [applySets] at h
    injection h with h
    subst h
    rfl
  | cons p rest ih =>
    obtain ⟨n, v⟩ := p
    simp only [List.map_cons, List.mem_cons, not_or] at hm
    simp only [applySets] at h
    cases h1 : r.setAttr n v with
    | none => simp [h1] at h
    | some r1 =>
      simp only [h1] at h
      rw [ih r1 h hm.2]
      exact getAttr_setAttr_other r r1 n m v h1 hm.1

/-- An attribute assigned once takes the assigned value. -/
theorem applySets_value (sets : List (String × JVal)) (r r2 : Row)
    (h : applySets r sets = some r2) (hnd : (sets.map Prod.fst).Nodup)
    (n : String) (x : JVal) (hx : (n, x) ∈ sets) : r2.getAttr n = x := by
  induction sets generalizing r with
  | nil => cases hx
  | cons p rest ih =>
    obtain ⟨n1, v1⟩ := p
    simp only [List.map_cons, List.nodup_cons] at hnd
    simp only [applySets] at h
    cases h1 : r.setAttr n1 v1 with
    | none => simp [h1] at h
    | some r1 =>
      simp only [h1] at h
      rcases List.mem_cons.1 hx with heq | hin
      · injection heq with e1 e2
        subst e1
        subst e2
        rw [applySets_frame rest r1 r2 h n hnd.1]
        exact getAttr_setAttr_same r r1 n x h1
      · exact ih r1 h hnd.2 hin

/-- No assignment writes the key exactly when no assigned name is `ProductID` or
`Version`. -/
theorem keyAssignment_eq_none (sets : List (String × JVal)) :
    keyAssignment sets = none ↔
      ∀ n x, (n, x) ∈ sets → n ≠ "ProductID" ∧ n ≠ "Version" := by
  simp only [keyAssignment, Option.map_eq_none', List.find?_eq_none, Bool.or_eq_true,
    decide_eq_true_eq, not_or, Prod.forall]

/-- Assignments that leave the key alone are all applied. -/
theorem applySets_succeeds (sets : List (String × JVal)) (r : Row)
    (h : keyAssignment sets = none) : ∃ r2, applySets r sets = some r2 := by
  rw [keyAssignment_eq_none] at h
  induction sets generalizing r with
  | nil => exact ⟨r, rfl⟩
  | cons p rest ih =>
    obtain ⟨n, v⟩ := p
    have hp := h n v (List.mem_cons_self _ _)
    have hset : r.setAttr n v = some { r with attrs := assocSet r.attrs n v } := by
      simp [Row.setAttr, hp.1, hp.2]
    obtain ⟨r2, hr2⟩ := ih { r with attrs := assocSet r.attrs n v }
      (fun n x hx => h n x (List.mem_cons_of_mem _ hx))
    exact ⟨r2, by simp only [applySets, hset, hr2]⟩

/-- The store's update on assignments that leave the key alone, each attribute assigned
once, addressed to a stored row: the update succeeds, the row is replaced by one in which
every assigned attribute has its assigned value and every other attribute the value it
had (partial-attribute semantics), and that row is what `ALL_NEW` returns. -/
theorem Store.update_nonkey (t : List Row) (req : UpdateReq) (k : String × ℚ)
    (sets : List (String × JVal)) (old : Row)
    (hkey : keyOf req.Key = some k)
    (hres : resolveClauses req.ExpressionAttributeNames req.ExpressionAttributeValues
      req.UpdateExpression = some sets)
    (hnokey : keyAssignment sets = none) (hnd : (sets.map Prod.fst).Nodup)
    (hold : t.find? (fun r => r.hasKey k) = some old) (hret : req.ReturnValues = "ALL_NEW") :
    ∃ new, Store.update t req = .ok (replaceRow k new t, new.toItem) ∧
      (∀ n x, (n, x) ∈ sets → new.getAttr n = x) ∧
      (∀ n, n ∉ sets.map Prod.fst → new.getAttr n = old.getAttr n) := by
  obtain ⟨new, hnew⟩ := applySets_succeeds sets old hnokey
  refine ⟨new, ?_, ?_, ?_⟩
  · simp [Store.update, hkey, hres, hnokey, hold, hnew, hret]
  · intro n x hx
    exact applySets_value sets old new hnew hnd n x hx
  · intro n hn
    exact applySets_frame sets old new hnew n hn

/-- The store refuses an update whose assignments write an attribute of the key, and
says which. -/
theorem Store.update_key_assignment (t : List Row) (req : UpdateReq) (k : String × ℚ)
    (sets : List (String × JVal)) (name : String)
    (hkey : keyOf req.Key = some k)
    (hres : resolveClauses req.ExpressionAttributeNames req.ExpressionAttributeValues
      req.UpdateExpression = some sets)
    (hassign : keyAssignment sets = some name) :
    Store.update t req =
      .error (validationException ("One or more parameter values were invalid: " ++
        "Cannot update attribute " ++ name ++ ". This attribute is part of the key")) := by
  simp only [Store.update, hkey, hres, hassign]

/-- The assignments the spec describes for an update always write the sort key
`Version`. -/
theorem keyAssignment_specAssignments (ts : Int) (body : JVal) (price stock : JNum) :
    keyAssignment (specAssignments ts body price stock) = some "Version" := by
  simp [keyAssignment, specAssignments, List.find?]

/-- Whatever the body supplies: for a non-empty path id, an object body whose price and
stock coerce to numbers, and a store that accepts the call, `updateProduct` issues
exactly one store call, an `update` through the write client whose `SET` clauses resolve
to exactly `specAssignments` (`UpdatedAt` and `Version` at the timestamp, then those of
`Name`, `Category`, `Price`, `Description`, `Stock` whose lower-case key is supplied,
`Price` and `Stock` as numbers).  Because `Version` is the sort key, the store refuses
the update: the answer is 500 and the table is left as it was. -/
theorem updateProduct_refused (ev : Event) (w : World) (id : String)
    (fields : List (String × JVal)) (price stock : JNum)
    (hid : ev.pathId = some id) (hne : id ≠ "")
    (hbody : ev.parsedBody = .ok (.obj fields))
    (hprice : w.cfg.toNumber ((JVal.obj fields).prop "price") = .ok price)
    (hstock : w.cfg.toNumber ((JVal.obj fields).prop "stock") = .ok stock)
    (hacc : w.accepts 1) :
    ∃ req,
      (updateProduct ev w).2.calls =
        w.calls ++ [⟨(getWriteClient w.dateNow.2).1, .update req⟩] ∧
      resolveClauses req.ExpressionAttributeNames req.ExpressionAttributeValues
        req.UpdateExpression =
          some (specAssignments (w.cfg.clock w.ticks) (.obj fields) price stock) ∧
      (updateProduct ev w).1.statusCode = 500 ∧
      (updateProduct ev w).1.body.field "error" = .str "Failed to update product" ∧
      (updateProduct ev w).2.table = w.table := by
  have hid2 : optTruthy ev.pathId = true := by simp [hid, optTruthy, hne]
  have hv := hacc 0 (by decide)
  simp only [Nat.add_zero] at hv
  obtain ⟨req, hreq, -, -, -, hres⟩ :=
    updateParams_resolved w.cfg id fields (w.cfg.clock w.ticks) price stock hprice hstock
  obtain ⟨e, hstore⟩ : ∃ e, Store.update w.table req = .error e := by
    cases hk : keyOf req.Key with
    | none =>
      exact ⟨validationException "The provided key element does not match the schema",
        by simp only [Store.update, hk]⟩
    | some k =>
      exact ⟨_, Store.update_key_assignment w.table req k _ "Version" hk hres
        (keyAssignment_specAssignments _ _ _ _)⟩
  have hcfg : (getWriteClient w.dateNow.2).2.cfg = w.cfg := by simp [World.dateNow]
  have htab : (getWriteClient w.dateNow.2).2.table = w.table := by simp [World.dateNow]
  have hcalls : (getWriteClient w.dateNow.2).2.calls = w.calls := by simp [World.dateNow]
  have hrun : updateProduct ev w =
      (createResponse
        { (getWriteClient w.dateNow.2).2 with
          calls := w.calls ++ [⟨(getWriteClient w.dateNow.2).1, .update req⟩] } 500 (.obj [
          ("error", .str "Failed to update product"),
          ("message", .str e.message)]),
        { (getWriteClient w.dateNow.2).2 with
          calls := w.calls ++ [⟨(getWriteClient w.dateNow.2).1, .update req⟩] }) := by
    have hparams : updateParams w.cfg (ev.pathId.getD "") (.obj fields) w.dateNow.1 = .ok req := by
      rw [hid]
      exact hreq
    simp only [updateProduct, updateProductTry, hbody, hid2, hparams, Bool.not_true,
      Bool.false_eq_true, if_false]
    rw [Client.update_accepted _ _ _ (by rw [hcfg, hcalls]; exact hv _)]
    simp only [htab, hstore, hcalls]
  rw [hrun]
  refine ⟨req, rfl, hres, rfl, ?_, htab⟩
  simp [createResponse, JVal.field, assocGet]

/-- C8 (evaluation at the failing input): the table holds `p1` at version 100 (`Price` 5,
`UpdatedAt` 100) and the store is reachable; the body is `version: 100, price: 19.99`.
`updateProduct` issues one `update` on the key `(p1, 100)` whose assignments are
`UpdatedAt`, `Version` (both the timestamp read) and `Price` (19.99), as claimed.
`Version` is the sort key of the table, so the store refuses the update: the answer is
500 with the store's message, the table is left as it was, the row of `p1` at version 100
still has `UpdatedAt` 100 and `Price` 5, and no row at the new timestamp exists. -/
theorem updateProduct_price_only_refused :
    priceUpdateEvent.pathId = some "p1" ∧
    priceUpdateEvent.parsedBody = .ok (.obj priceOnlyFields) ∧
    sampleWorld.table.find? (fun r => r.hasKey ("p1", 100)) = some p1v100 ∧
    (updateProduct priceUpdateEvent sampleWorld).2.calls.map (fun c => c.op.assignments) =
      [some ([("ProductID", .str "p1"), ("Version", .num (.fin 100))],
        [("UpdatedAt", JVal.int 1700000000000), ("Version", JVal.int 1700000000000),
          ("Price", .num (.fin (mkRat 1999 100)))])] ∧
    (updateProduct priceUpdateEvent sampleWorld).1.statusCode = 500 ∧
    (updateProduct priceUpdateEvent sampleWorld).1.body =
      .obj [("error", .str "Failed to update product"),
        ("message", .str ("One or more parameter values were invalid: " ++
          "Cannot update attribute Version. This attribute is part of the key"))] ∧
    (updateProduct priceUpdateEvent sampleWorld).2.table = sampleWorld.table ∧
    (updateProduct priceUpdateEvent sampleWorld).2.table.find? (fun r => r.hasKey ("p1", 100)) =
      some p1v100 ∧
    p1v100.getAttr "UpdatedAt" = .num (.fin 100) ∧
    p1v100.getAttr "Price" = .num (.fin 5) ∧
    (updateProduct priceUpdateEvent sampleWorld).2.table.find?
      (fun r => r.hasKey ("p1", 1700000000000)) = none := by
  refine ⟨rfl, rfl, rfl, by rfl, by decide, by rfl, by rfl, by rfl, by rfl, by rfl, by rfl⟩

/-! ### C9: routing -/

/-- C9: with `TABLE_NAME` configured, the handler runs `createProduct` for POST on
`/products`; `getProduct` for GET with a (non-empty) path id; `listProducts` for GET on
`/products` without one; `updateProduct` for PUT with a path id; `deleteProduct` for
DELETE with a path id; and for every other event it answers 404 "Route not found" and
leaves the world as it was (no store call is issued). -/
theorem handler_routes (ev : Event) (w : World) (htable : optTruthy w.cfg.TABLE_NAME = true) :
    (ev.httpMethod = "POST" ∧ ev.path = "/products" → handler ev w = createProduct ev w) ∧
    (ev.httpMethod = "GET" ∧ optTruthy ev.pathId = true → handler ev w = getProduct ev w) ∧
    (ev.httpMethod = "GET" ∧ optTruthy ev.pathId = false ∧ ev.path = "/products" →
      handler ev w = listProducts ev w) ∧
    (ev.httpMethod = "PUT" ∧ optTruthy ev.pathId = true → handler ev w = updateProduct ev w) ∧
    (ev.httpMethod = "DELETE" ∧ optTruthy ev.pathId = true →
      handler ev w = deleteProduct ev w) ∧
    (¬(ev.httpMethod = "POST" ∧ ev.path = "/products") ∧
      ¬(ev.httpMethod = "GET" ∧ optTruthy ev.pathId = true) ∧
      ¬(ev.httpMethod = "GET" ∧ ev.path = "/products") ∧
      ¬(ev.httpMethod = "PUT" ∧ optTruthy ev.pathId = true) ∧
      ¬(ev.httpMethod = "DELETE" ∧ optTruthy ev.pathId = true) →
      handler ev w = (createResponse w 404 (.obj [("error", .str "Route not found")]), w) ∧
      (handler ev w).1.statusCode = 404 ∧ (handler ev w).2.calls = w.calls) := by
  refine ⟨?_, ?_, ?_, ?_, ?_, ?_⟩
  · rintro ⟨h1, h2⟩
    simp [handler, htable, h1, h2]
  · rintro ⟨h1, h2⟩
    simp [handler, htable, h1, h2]
  · rintro ⟨h1, h2, h3⟩
    simp [handler, htable, h1, h2, h3]
  · rintro ⟨h1, h2⟩
    simp [handler, htable, h1, h2]
  · rintro ⟨h1, h2⟩
    simp [handler, htable, h1, h2]
  · rintro ⟨h1, h2, h3, h4, h5⟩
    have h : handler ev w =
        (createResponse w 404 (.obj [("error", .str "Route not found")]), w) := by
      simp only [handler, htable, Bool.not_true, Bool.false_eq_true, if_false, h1, h2, h3, h4,
        h5]
    rw [h]
    exact ⟨rfl, rfl, rfl⟩

/-- Witness for C9: in the demo world, PUT on `/products` without a path id is answered
404 without a store call. -/
theorem handler_routes_witness :
    optTruthy demoWorld.cfg.TABLE_NAME = true ∧
    (handler putWithoutIdEvent demoWorld).1.statusCode = 404 ∧
    (handler putWithoutIdEvent demoWorld).2.calls = demoWorld.calls :=
  ⟨rfl,
    ((handler_routes putWithoutIdEvent demoWorld rfl).2.2.2.2.2
      ⟨by decide, by decide, by decide, by decide, by decide⟩).2⟩

/-! ### C11: `listProducts` by category -/

theorem limitText_default (ev : Event) (h : optTruthy (ev.queryParam "limit") = false) :
    ev.limitText = "20" := by
  simp [Event.limitText, h]

theorem limitCount_natCast (n : Nat) (hn : 1 ≤ n) :
    limitCount (some (.fin (n : ℚ))) = some (some n) := by
  have h1 : (1 : Int) ≤ (n : Int) := by exact_mod_cast hn
  simp [limitCount, h1]

/-- Under a positive limit, the store reports a `LastEvaluatedKey` exactly when at least
`n` rows match, whether or not any row is left beyond the `n` returned. -/
theorem page_lastKey_isSome (rows : List Row) (n : Nat) (hn : 1 ≤ n) :
    (page rows (some n)).2.isSome = decide (n ≤ rows.length) := by
  by_cases h : n ≤ rows.length
  · have hne : rows.take n ≠ [] := by
      intro h0
      have hl := congrArg List.length h0
      simp only [List.length_take, List.length_nil] at hl
      omega
    have hsome : (rows.take n).getLast?.isSome = true := List.getLast?_isSome.2 hne
    simp [page, h, hsome]
  · simp [page, h]

/-- Every row the category index lists under `c` has `Category = c` and is a row of the
table. -/
theorem mem_categoryRows (t : List Row) (c : String) (r : Row) (h : r ∈ categoryRows t c) :
    r ∈ t ∧ r.getAttr "Category" = .str c := by
  unfold categoryRows at h
  obtain ⟨hr, hp⟩ := List.mem_filter.1 h
  refine ⟨hr, ?_⟩
  cases hcat : r.getAttr "Category" <;> simp only [hcat] at hp <;> first
    | cases hp
    | (simp only [decide_eq_true_eq] at hp; rw [hp])

/-- What the store answers to the category query of `listProducts` under a positive
limit. -/
theorem Store.query_category (t : List Row) (tn : Option String) (c : String) (n : Nat)
    (hn : 1 ≤ n) :
    Store.query t
      { TableName := tn
        IndexName := some "CategoryIndex"
        KeyConditionExpression := ("Category", ":category")
        ExpressionAttributeValues := [(":category", .str c)]
        ProjectionExpression := none
        ExpressionAttributeNames := []
        ScanIndexForward := true
        Limit := some (.fin (n : ℚ)) } =
      .ok { Items := some (((categoryRows t c).take n).map Row.toItem)
            Count := ((categoryRows t c).take n).length
            LastEvaluatedKey := (page (categoryRows t c) (some n)).2 } := by
  simp only [Store.query, assocGet, limitCount_natCast n hn, if_true, page, and_self]
  rfl

/-- What `listProducts` answers for a non-empty category `c` and a limit text that
`parseInt` reads as the positive integer `n`, on a store that accepts the query: status
200, the first `n` rows the category index lists under `c`, their number as `count`, and
`hasMoreResults` true exactly when at least `n` rows are listed under `c`. -/
theorem listProducts_category (ev : Event) (w : World) (c : String) (n : Nat)
    (hcat : ev.queryParam "category" = some c) (hc : c ≠ "")
    (hlimit : w.cfg.parseInt ev.limitText = .fin (n : ℚ)) (hn : 1 ≤ n)
    (hacc : w.accepts 1) :
    (listProducts ev w).1.statusCode = 200 ∧
    (listProducts ev w).1.body.field "products" =
      .arr (((categoryRows w.table c).take n).map Row.toItem) ∧
    (listProducts ev w).1.body.field "count" =
      JVal.int ((categoryRows w.table c).take n).length ∧
    ((listProducts ev w).1.body.field "metadata").field "hasMoreResults" =
      .bool (decide (n ≤ (categoryRows w.table c).length)) := by
  have hv := hacc 0 (by decide)
  simp only [Nat.add_zero] at hv
  have hcfg : (getReadClient w).2.dateNow.2.cfg = w.cfg := by simp [World.dateNow]
  have htab : (getReadClient w).2.dateNow.2.table = w.table := by simp [World.dateNow]
  have hcalls : (getReadClient w).2.dateNow.2.calls = w.calls := by simp [World.dateNow]
  have htruthy : optTruthy (ev.queryParam "category") = true := by simp [hcat, optTruthy, hc]
  have hlim : w.cfg.parseInt
      (if optTruthy (ev.queryParam "limit") then (ev.queryParam "limit").getD "" else "20") =
      .fin (n : ℚ) := hlimit
  simp only [listProducts, listProductsTry, htruthy, hlim, if_true]
  generalize (getReadClient w).2.dateNow.2 = w0 at hcfg htab hcalls ⊢
  rw [Client.query_accepted _ _ w0 (by rw [hcfg, hcalls]; exact hv _)]
  simp only [htab, hcat, Option.getD_some, Store.query_category _ _ _ n hn,
    page_lastKey_isSome _ n hn]
  simp [createResponse, JVal.field, assocGet]

theorem categoryRows_of_mem (t : List Row) (c : String) (r : Row) (hr : r ∈ t)
    (hcat : r.getAttr "Category" = .str c) : r ∈ categoryRows t c := by
  unfold categoryRows
  exact List.mem_filter.2 ⟨hr, by simp [hcat]⟩

/-- C11 (counterexample): category `tools`, limit 2, and a table holding exactly two rows
of category `tools`.  `listProducts` returns both of them, so no row of the category
exists beyond those returned, and yet reports `hasMoreResults: true`; the claimed
equivalence fails here. -/
theorem listProducts_exact_limit_reports_more :
    (categoryRows toolsPairWorld.table "tools").length = 2 ∧
    (listProducts listToolsEvent toolsPairWorld).1.body.field "products" =
      .arr ((categoryRows toolsPairWorld.table "tools").map Row.toItem) ∧
    ((listProducts listToolsEvent toolsPairWorld).1.body.field "metadata").field
      "hasMoreResults" = .bool true ∧
    ¬(((listProducts listToolsEvent toolsPairWorld).1.body.field "metadata").field
        "hasMoreResults" = .bool true ↔
      2 < (categoryRows toolsPairWorld.table "tools").length) := by
  have hmore : ((listProducts listToolsEvent toolsPairWorld).1.body.field "metadata").field
      "hasMoreResults" = .bool true := by rfl
  have hlen : (categoryRows toolsPairWorld.table "tools").length = 2 := by decide
  refine ⟨hlen, by rfl, hmore, ?_⟩
  intro h
  have := h.1 hmore
  omega

/-- C11 (amended): for a non-empty category `c`, a limit text that `parseInt` reads as
the positive integer `n` (the text is `'20'` when no limit is given), and a store that
accepts the query, `listProducts` answers 200 with rows of the table that all have
`Category = c`; they are at most `n`, and exactly `n` when the table holds at least `n`
rows of category `c`; `count` is their number; and `hasMoreResults` is true exactly when
the table holds at least `n` rows of category `c` (the limit was reached). -/
theorem listProducts_by_category (ev : Event) (w : World) (c : String) (n : Nat)
    (hcat : ev.queryParam "category" = some c) (hc : c ≠ "")
    (hlimit : w.cfg.parseInt ev.limitText = .fin (n : ℚ)) (hn : 1 ≤ n)
    (hacc : w.accepts 1) :
    (optTruthy (ev.queryParam "limit") = false → ev.limitText = "20") ∧
    ∃ rows : List Row,
      (listProducts ev w).1.statusCode = 200 ∧
      (listProducts ev w).1.body.field "products" = .arr (rows.map Row.toItem) ∧
      (listProducts ev w).1.body.field "count" = JVal.int rows.length ∧
      rows.length ≤ n ∧
      (∀ r ∈ rows, r ∈ w.table ∧ r.getAttr "Category" = .str c) ∧
      (n ≤ (categoryRows w.table c).length → rows.length = n) ∧
      (((listProducts ev w).1.body.field "metadata").field "hasMoreResults" = .bool true ↔
        n ≤ (categoryRows w.table c).length) := by
  obtain ⟨hstatus, hproducts, hcount, hmore⟩ :=
    listProducts_category ev w c n hcat hc hlimit hn hacc
  refine ⟨limitText_default ev, (categoryRows w.table c).take n, hstatus, hproducts, hcount,
    ?_, ?_, ?_, ?_⟩
  · rw [List.length_take]
    exact Nat.min_le_left _ _
  · intro r hr
    exact mem_categoryRows w.table c r (List.mem_of_mem_take hr)
  · intro hle
    rw [List.length_take]
    exact Nat.min_eq_left hle
  · rw [hmore]
    constructor
    · intro h
      injection h with h
      exact of_decide_eq_true h
    · intro h
      rw [decide_eq_true h]

/-- Witness for C11: the spec's scenario, category `tools`, limit 2, five rows of
category `tools`: exactly two rows come back and `hasMoreResults` is true. -/
theorem listProducts_by_category_witness :
    listToolsEvent.queryParam "category" = some "tools" ∧
    fiveToolsWorld.cfg.parseInt listToolsEvent.limitText = .fin 2 ∧
    fiveToolsWorld.accepts 1 ∧
    (categoryRows fiveToolsWorld.table "tools").length = 5 ∧
    (listProducts listToolsEvent fiveToolsWorld).1.body.field "count" = JVal.int 2 ∧
    ((listProducts listToolsEvent fiveToolsWorld).1.body.field "metadata").field
      "hasMoreResults" = .bool true :=
  have h := listProducts_by_category listToolsEvent fiveToolsWorld "tools" 2 rfl (by decide)
    (by rfl) (by decide) (fun _ _ _ => rfl)
  ⟨rfl, by rfl, fun _ _ _ => rfl, by decide, by rfl,
    match h.2 with
    | ⟨_, _, _, _, _, _, _, hm⟩ => hm.2 (by decide)⟩

end Dynamo
